import Mathlib

/-!
Shallow embedding of the train-simulation core of BuildMyTransit
(`src/unnamed/part_004`, first module: `WaySection`, `Infra`, `TrainRoute`,
`Train`, `TrainManager`), together with theorems settling the frozen claims.

Modelling conventions:
* JavaScript numbers are modelled as exact rationals (`ℚ`).  All arithmetic
  in the hot loop is +, -, *, /, min, max and comparisons, which the
  embedding mirrors literally.  `Number.MAX_SAFE_INTEGER` is the literal
  `9007199254740991`.
* The geodesic geometry provided by the external turf library
  (`turf.length`, `turf.nearestPointOnLine(...).properties.location`,
  `turf.along`, `turf.bearing`) is kept abstract as a `Geo` record of
  functions; every theorem quantifies over it, and concrete
  counterexamples instantiate it with an exact equatorial metric
  (points on the equator, length proportional to longitude difference),
  which agrees with the geodesic length up to the choice of unit.
* JavaScript `Map` objects (insertion ordered) are modelled as association
  lists; object mutation is modelled by explicit state passing.  The train
  objects shared by reference between `TrainManager.trains` and the
  `allTrains` array are modelled by reading the current association list
  at every step of the tick fold, exactly as the aliasing behaves.
* Exceptions (`throw new Error`) are modelled with `Except String`.
-/

namespace BMT

/-- JS `Array.prototype.includes` on string arrays. -/
def jsIncludes (l : List String) (x : String) : Bool :=
  match l with
  | [] => false
  | y :: ys => y = x || jsIncludes ys x

/-- `findCommonElement` from the source: first element of `a` contained in `b`. -/
def findCommonElement (a b : List String) : Option String :=
  match a with
  | [] => none
  | item :: rest => if jsIncludes b item then some item else findCommonElement rest b

/-- JS `Array.prototype.indexOf`, as an `Option Nat` (`none` for `-1`). -/
def jsIndexOf (l : List String) (x : String) : Option Nat :=
  match l with
  | [] => none
  | y :: ys => if y = x then some 0 else (jsIndexOf ys x).map (· + 1)

/-- Strict traversal with short-circuiting failure (JS `array.map` over a
callback that can `throw`). -/
def mapExcept {α β : Type} (f : α → Except String β) : List α → Except String (List β)
  | [] => .ok []
  | x :: xs =>
    match f x with
    | .error e => .error e
    | .ok y =>
      match mapExcept f xs with
      | .error e => .error e
      | .ok ys => .ok (y :: ys)

/-- Strict traversal with short-circuiting failure over `Option`. -/
def mapOption {α β : Type} (f : α → Option β) : List α → Option (List β)
  | [] => some []
  | x :: xs =>
    match f x with
    | none => none
    | some y =>
      match mapOption f xs with
      | none => none
      | some ys => some (y :: ys)

/-- JS `Math.min(...opts)` on a spread array; `[]` gives `Infinity`,
modelled by the `MAX_SAFE_INTEGER` sentinel (the code never calls it on an
empty array: the options list always contains the base acceleration). -/
def jsMin : List ℚ → ℚ
  | [] => 9007199254740991
  | x :: xs => xs.foldl min x

theorem jsMin_le_head (x : ℚ) (xs : List ℚ) : jsMin (x :: xs) ≤ x := by
  suffices h : ∀ (l : List ℚ) (a : ℚ), l.foldl min a ≤ a by exact h xs x
  intro l
  induction l with
  | nil => intro a; simp
  | cons y ys ih =>
    intro a
    calc List.foldl min (min a y) ys ≤ min a y := ih (min a y)
    _ ≤ a := min_le_left _ _

theorem jsMin_ge (c x : ℚ) (xs : List ℚ) (hx : c ≤ x) (h : ∀ y ∈ xs, c ≤ y) :
    c ≤ jsMin (x :: xs) := by
  suffices hs : ∀ (l : List ℚ) (a : ℚ), c ≤ a → (∀ y ∈ l, c ≤ y) → c ≤ l.foldl min a by
    exact hs xs x hx h
  intro l
  induction l with
  | nil => intro a ha _; simpa using ha
  | cons y ys ih =>
    intro a ha hl
    refine ih (min a y) (le_min ha (hl y (by simp))) ?_
    intro z hz
    exact hl z (by simp [hz])

/-- Association-list lookup (JS `Map.get`). -/
def alookup {β : Type} (l : List (String × β)) (k : String) : Option β :=
  match l with
  | [] => none
  | (k', v) :: t => if k' = k then some v else alookup t k

/-- Association-list in-place overwrite of an existing key
(JS `Map.set` on a key produced by iterating the same map). -/
def aset {β : Type} (l : List (String × β)) (k : String) (v : β) : List (String × β) :=
  match l with
  | [] => []
  | (k', v') :: t => if k' = k then (k', v) :: t else (k', v') :: aset t k v

theorem aset_keys {β : Type} (l : List (String × β)) (k : String) (v : β) :
    (aset l k v).map Prod.fst = l.map Prod.fst := by
  induction l with
  | nil => rfl
  | cons p t ih =>
    obtain ⟨k', v'⟩ := p
    by_cases h : k' = k <;> simp [aset, h, ih]

theorem alookup_aset_self {β : Type} (l : List (String × β)) (k : String) (v : β)
    (h : (alookup l k).isSome) : alookup (aset l k v) k = some v := by
  induction l with
  | nil => simp [alookup] at h
  | cons p t ih =>
    obtain ⟨k', v'⟩ := p
    by_cases hk : k' = k
    · simp [aset, hk, alookup]
    · simp [alookup, hk] at h
      simp [aset, hk, alookup, ih h]

theorem alookup_aset_ne {β : Type} (l : List (String × β)) (k k' : String) (v : β)
    (h : k ≠ k') : alookup (aset l k v) k' = alookup l k' := by
  induction l with
  | nil => rfl
  | cons p t ih =>
    obtain ⟨k₀, v₀⟩ := p
    by_cases hk : k₀ = k
    · subst hk
      simp [aset, alookup, h, ih]
    · simp [aset, hk, alookup, ih]

theorem alookup_mem {β : Type} (l : List (String × β)) (k : String) (v : β)
    (h : alookup l k = some v) : (k, v) ∈ l := by
  induction l with
  | nil => simp [alookup] at h
  | cons p t ih =>
    obtain ⟨k₀, v₀⟩ := p
    by_cases hk : k₀ = k
    · subst hk
      simp [alookup] at h
      simp [h]
    · simp [alookup, hk] at h
      simp [ih h]

theorem mem_aset {β : Type} (l : List (String × β)) (k : String) (v : β)
    (p : String × β) (h : p ∈ aset l k v) : p.2 = v ∨ p ∈ l := by
  induction l with
  | nil => simp [aset] at h
  | cons q t ih =>
    obtain ⟨k₀, v₀⟩ := q
    by_cases hk : k₀ = k
    · simp [aset, hk] at h
      rcases h with h | h
      · left; simp [h]
      · right; simp [h]
    · simp [aset, hk] at h
      rcases h with h | h
      · right; simp [h]
      · rcases ih h with h' | h'
        · left; exact h'
        · right; simp [h']

theorem alookup_filter {β : Type} (l : List (String × β)) (p : String × β → Bool)
    (k : String) (v : β) (h : alookup l k = some v) (hp : p (k, v) = true) :
    alookup (l.filter p) k = some v := by
  induction l with
  | nil => simp [alookup] at h
  | cons q t ih =>
    obtain ⟨k₀, v₀⟩ := q
    by_cases hk : k₀ = k
    · subst hk
      simp [alookup] at h
      subst h
      simp [List.filter, hp, alookup]
    · simp [alookup, hk] at h
      by_cases hq : p (k₀, v₀) = true
      · simp [List.filter, hq, alookup, hk, ih h]
      · have hq' : p (k₀, v₀) = false := by
          cases hpv : p (k₀, v₀) with
          | false => rfl
          | true => exact absurd hpv hq
        simp only [List.filter, hq']
        exact ih h

/-! ### The abstract geodesic geometry supplied by turf -/

/-- The geographic primitives the simulation core takes from the turf
library, kept abstract: `lineLen` is `turf.length(turf.lineString pts)`,
`nearestLoc` is `turf.nearestPointOnLine(line, p).properties.location`,
`alongPt` is `turf.along(line, d).geometry.coordinates` and `bearingOf`
is `degreesToRadians (turf.bearing p q)`. -/
structure Geo where
  lineLen : List (ℚ × ℚ) → ℚ
  nearestLoc : List (ℚ × ℚ) → (ℚ × ℚ) → ℚ
  alongPt : List (ℚ × ℚ) → ℚ → ℚ × ℚ
  bearingOf : (ℚ × ℚ) → (ℚ × ℚ) → ℚ

/-! ### Infra -/

/-- A track segment ("way"): ordered node ids plus the bidirectionality flag. -/
structure Way where
  nodes : List String
  bidi : Bool
deriving DecidableEq

/-- The static network: ways and node coordinates, keyed by id
(JS objects, modelled as insertion-ordered association lists). -/
structure Infra where
  ways : List (String × Way)
  node_coords : List (String × (ℚ × ℚ))
deriving DecidableEq

namespace Infra

/-- `Infra.getWay`. -/
def getWay (infra : Infra) (wayId : String) : Option Way :=
  alookup infra.ways wayId

/-- `Infra.getNodeCoords`. -/
def getNodeCoords (infra : Infra) (nodeId : String) : Option (ℚ × ℚ) :=
  alookup infra.node_coords nodeId

/-- `Infra.getAllWayIds`. -/
def getAllWayIds (infra : Infra) : List String :=
  infra.ways.map Prod.fst

/-- `Infra.getWayDistance`: geodesic length of the whole way, `0` for a
missing or degenerate way (coordinates that fail to resolve are filtered). -/
def getWayDistance (geo : Geo) (infra : Infra) (wayId : String) : ℚ :=
  match getWay infra wayId with
  | none => 0
  | some way =>
    if way.nodes.length < 2 then 0
    else
      let coordinates := way.nodes.filterMap (fun nodeId => getNodeCoords infra nodeId)
      if coordinates.length < 2 then 0
      else geo.lineLen coordinates

end Infra

/-! ### WaySection -/

/-- A possibly-partial oriented slice of a way between two nodes, with the
derived node-id subsequence and resolved coordinates (computed and cached
by the constructor). -/
structure WaySection where
  wayId : String
  startNodeId : String
  endNodeId : String
  nodeIds : List String
  points : List (ℚ × ℚ)
deriving DecidableEq

/-- The `WaySection` constructor.  `Except.error` models `throw new Error`:
missing way, an endpoint not present in the way's node list, or an
unresolvable node coordinate.  Defaulted endpoints are the way's first/last
node.  When the start index is after the end index the nodes are walked
backward (the source logs a warning for a unidirectional way but still
builds the section). -/
def mkWaySection (infra : Infra) (wayId : String)
    (startNodeId? endNodeId? : Option String) : Except String WaySection :=
  match Infra.getWay infra wayId with
  | none => .error ("Way not found: " ++ wayId)
  | some way =>
    let startNodeId := startNodeId?.getD (way.nodes.headD "")
    let endNodeId := endNodeId?.getD (way.nodes.getLastD "")
    match jsIndexOf way.nodes startNodeId, jsIndexOf way.nodes endNodeId with
    | none, _ => .error "Start or end node not found in way"
    | _, none => .error "Start or end node not found in way"
    | some startIndex, some endIndex =>
      let nodeIds :=
        if startIndex < endIndex then
          (way.nodes.drop startIndex).take (endIndex + 1 - startIndex)
        else
          ((way.nodes.drop endIndex).take (startIndex + 1 - endIndex)).reverse
      match mapOption (fun nodeId => Infra.getNodeCoords infra nodeId) nodeIds with
      | none => .error "Node coordinates not found"
      | some points =>
        .ok { wayId := wayId, startNodeId := startNodeId, endNodeId := endNodeId,
              nodeIds := nodeIds, points := points }

namespace WaySection

/-- `WaySection.getCoordinates`. -/
def getCoordinates (ws : WaySection) : List (ℚ × ℚ) := ws.points

/-- `WaySection.getDistance`: geodesic length of the slice, `0` when it has
fewer than two points. -/
def getDistance (geo : Geo) (ws : WaySection) : ℚ :=
  if ws.points.length < 2 then 0 else geo.lineLen ws.points

/-- `WaySection.getNodes`. -/
def getNodes (ws : WaySection) : List String := ws.nodeIds

end WaySection

/-! ### TrainRoute -/

/-- A cached stop projected onto the merged route polyline.  The
`pointOnRoute` GeoJSON payload of the source (used only for rendering)
is not modelled. -/
structure StopPos where
  nodeId : String
  routePosition : ℚ
  coordinates : ℚ × ℚ
deriving DecidableEq

/-- Insertion step for the numeric-comparator `stops.sort` of the source. -/
def insertByPos (s : StopPos) : List StopPos → List StopPos
  | [] => [s]
  | t :: ts => if s.routePosition ≤ t.routePosition then s :: t :: ts else t :: insertByPos s ts

/-- The JS stable numeric sort `stops.sort((a, b) => a.routePosition - b.routePosition)`,
modelled as insertion sort (any sorting algorithm yields a list sorted by
`routePosition`, which is all the code relies on). -/
def sortByPos : List StopPos → List StopPos
  | [] => []
  | s :: ss => insertByPos s (sortByPos ss)

/-- A `TrainRoute`: the ordered `WaySection`s, declared stop node ids, the
cumulative-distance table (`sectionDistances`, keyed in the source by
section object identity, here kept positionally aligned with
`waySections`) and the total distance.  The display-only fields
(`name`, `bullet`, `color`) are not modelled. -/
structure TrainRoute where
  infra : Infra
  waySections : List WaySection
  stopNodeIds : List String
  sectionDistances : List ℚ
  totalDistance : ℚ
deriving DecidableEq

/-- A service definition (display-only fields omitted). -/
structure Service where
  stop_node_ids : List String
  route_way_ids : List String

namespace TrainRoute

/-- `TrainRoute.buildRoute`: fills the cumulative-distance table and the
total distance by summing section lengths in order. -/
def buildRoute (geo : Geo) (infra : Infra) (stopNodeIds : List String)
    (waySections : List WaySection) : TrainRoute :=
  let cums := waySections.foldl
    (fun (acc : List ℚ × ℚ) ws =>
      (acc.1 ++ [acc.2], acc.2 + WaySection.getDistance geo ws)) ([], 0)
  { infra := infra, waySections := waySections, stopNodeIds := stopNodeIds,
    sectionDistances := cums.1, totalDistance := cums.2 }

/-- One step of the connecting-node pass of `fromService`: for consecutive
segments `i` and `i+1`, the first common node becomes the end endpoint of
the earlier section and the start endpoint of the later one (no change if
no common node exists; the source only logs a warning). -/
def connectStep (nodes : List (List String)) (startEnds : List (String × String))
    (i : Nat) : List (String × String) :=
  match findCommonElement (nodes.getD i []) (nodes.getD (i + 1) []) with
  | none => startEnds
  | some commonNodeId =>
    let se := startEnds.getD i ("", "")
    let se' := startEnds.getD (i + 1) ("", "")
    (startEnds.set i (se.1, commonNodeId)).set (i + 1) (commonNodeId, se'.2)

/-- The two endpoint fixups of `fromService`: if the FIRST segment's two
computed endpoints coincide, its start is replaced by the last node of its
original node list; if the LAST segment's two computed endpoints coincide,
its end is replaced by the first node of its original node list.  (These
are the only two substitutions in the source.) -/
def fixupEnds (nodes : List (List String)) (startEnds : List (String × String)) :
    List (String × String) :=
  let se₁ :=
    match startEnds with
    | [] => startEnds
    | se :: _ =>
      if se.1 = se.2 then
        startEnds.set 0 ((nodes.getD 0 []).getLastD "", se.2)
      else startEnds
  match se₁.getLast? with
  | none => se₁
  | some last =>
    if last.1 = last.2 then
      se₁.set (se₁.length - 1) (last.1, (nodes.getLastD []).headD "")
    else se₁

/-- `TrainRoute.fromService`.  With zero or one segment, each segment
becomes a full-segment section.  Otherwise the connecting-node pass runs
over consecutive pairs, the first/last endpoint fixups are applied, and
each section is built from its final endpoint pair.  As in the source,
`nodes` is the list of node lists of the ways that resolve, while the way
id passed to each `WaySection` is read from the unfiltered
`route_way_ids` at the same index. -/
def fromService (geo : Geo) (infra : Infra) (service : Service) :
    Except String TrainRoute :=
  let sections :=
    if service.route_way_ids.length ≤ 1 then
      mapExcept (fun wayId => mkWaySection infra wayId none none) service.route_way_ids
    else
      let nodes := service.route_way_ids.filterMap
        (fun wayId => (Infra.getWay infra wayId).map Way.nodes)
      let startEnds₀ := nodes.map (fun nodeIds => (nodeIds.headD "", nodeIds.getLastD ""))
      let startEnds₁ := (List.range (startEnds₀.length - 1)).foldl
        (connectStep nodes) startEnds₀
      let startEnds := fixupEnds nodes startEnds₁
      mapExcept (fun index =>
          let se := startEnds.getD index ("", "")
          mkWaySection infra (service.route_way_ids.getD index "") (some se.1) (some se.2))
        (List.range startEnds.length)
  match sections with
  | .error e => .error e
  | .ok waySections => .ok (buildRoute geo infra service.stop_node_ids waySections)

/-- The scan inside `TrainRoute.getRoutePosition`: cumulative distance of
the first section whose way id matches, plus the distance along it; `0`
when no section matches. -/
def routePositionLoop (wayId : String) (distanceAlongWay : ℚ) :
    List (WaySection × ℚ) → ℚ
  | [] => 0
  | (ws, cum) :: rest =>
    if ws.wayId = wayId then cum + distanceAlongWay
    else routePositionLoop wayId distanceAlongWay rest

/-- `TrainRoute.getRoutePosition` proper: scan the sections (paired with
their cumulative distances). -/
def getRoutePosition (route : TrainRoute) (wayId : String) (distanceAlongWay : ℚ) : ℚ :=
  routePositionLoop wayId distanceAlongWay (route.waySections.zip route.sectionDistances)

/-- `TrainRoute.getRouteLine`: the merged polyline over all sections,
skipping a section's first coordinate when it repeats the previously added
one; `none` when fewer than 2 coordinates result. -/
def getRouteLine (route : TrainRoute) : Option (List (ℚ × ℚ)) :=
  let routeCoordinates := route.waySections.foldl
    (fun (acc : List (ℚ × ℚ)) ws =>
      let coordinates := WaySection.getCoordinates ws
      if coordinates.length < 2 then acc
      else if acc.isEmpty then acc ++ coordinates
      else
        match acc.getLast?, coordinates with
        | some lastCoord, firstCoord :: _ =>
          if lastCoord.1 ≠ firstCoord.1 ∨ lastCoord.2 ≠ firstCoord.2 then
            acc ++ coordinates
          else acc ++ coordinates.drop 1
        | _, _ => acc ++ coordinates) []
  if routeCoordinates.length < 2 then none else some routeCoordinates

/-- `TrainRoute.cacheStopPositions` / `getCachedStopPositions` (the cache is
recomputed on demand; it is write-once in the source, so reading through
the recomputation is equivalent): each declared stop node with resolvable
coordinates is projected onto the merged polyline, `0.075` km (half a
platform length) is subtracted and the result clamped to `≥ 0`; stops with
unresolvable coordinates are dropped; the list is sorted by route
position ascending. -/
def getCachedStopPositions (geo : Geo) (route : TrainRoute) : List StopPos :=
  if route.stopNodeIds.isEmpty then []
  else
    match getRouteLine route with
    | none => []
    | some routeLine =>
      let stops := route.stopNodeIds.filterMap (fun stopNodeId =>
        match Infra.getNodeCoords route.infra stopNodeId with
        | none => none
        | some stopCoords =>
          some { nodeId := stopNodeId,
                 routePosition := max 0 (geo.nearestLoc routeLine stopCoords - 0.075),
                 coordinates := stopCoords })
      sortByPos stops

/-- The scan inside `TrainRoute.getNextStopAhead`: skip the stop just
departed from, return the first stop strictly ahead of the position. -/
def nextStopLoop (currentRoutePosition : ℚ) (lastStopId : Option String) :
    List StopPos → Option StopPos
  | [] => none
  | stop :: rest =>
    if (match lastStopId with
        | some lastId => stop.nodeId == lastId
        | none => false) then nextStopLoop currentRoutePosition lastStopId rest
    else if stop.routePosition > currentRoutePosition then some stop
    else nextStopLoop currentRoutePosition lastStopId rest

/-- `TrainRoute.getNextStopAhead`: first cached stop strictly ahead of the
given route position, skipping the stop just departed from. -/
def getNextStopAhead (geo : Geo) (route : TrainRoute) (currentRoutePosition : ℚ)
    (lastStopId : Option String) : Option StopPos :=
  nextStopLoop currentRoutePosition lastStopId (getCachedStopPositions geo route)

end TrainRoute

/-! ### Train -/

/-- The per-train constant parameters of the source, declared as instance
fields initialized to fixed values and never reassigned; modelled as
constants.  Units: accelerations in m/s², velocities in m/s, track
distances in km. -/
def baseAcceleration : ℚ := 1

/-- Base service braking, 2 m/s². -/
def baseDeceleration : ℚ := 2

/-- Emergency braking, 5 m/s². -/
def emergencyDeceleration : ℚ := 5

/-- `const maxSpeed = 60 / 2.23694` (60 mph in m/s), local to
`calculateAcceleration`. -/
def maxSpeed : ℚ := 60 / 2.23694

/-- `Number.MAX_SAFE_INTEGER`, the sentinel "infinite" gap. -/
def maxSafe : ℚ := 9007199254740991

/-- Default dwell time in seconds. -/
def defaultDwellTime : ℚ := 10

/-- A vehicle.  `slowDownDistance` and `emergencyDistance` are declared in
the source but never read by this module's logic, so they are omitted.
The `infra` field stored by the constructor is likewise never read
(every method receives `infra` as a parameter or goes through
`this.route`/`this.waySection`). -/
structure Train where
  id : String
  waySection : WaySection
  distanceAlongKm : ℚ
  velocity : ℚ
  acceleration : ℚ
  coordinates : ℚ × ℚ
  bearing : ℚ
  route : TrainRoute
  routePosition : ℚ
  isAtStop : Bool
  stopDwellTime : ℚ
  remainingDwellTime : ℚ
  lastStopNodeId : Option String
deriving DecidableEq

/-- `waySections.findIndex(section => section.wayId === wayId)`, used by
`Train.getDistanceToTrainAhead` and `Train.moveToNextWay`. -/
def sectionIndexOf (wayId : String) : List WaySection → Option Nat
  | [] => none
  | ws :: rest =>
    if ws.wayId = wayId then some 0 else (sectionIndexOf wayId rest).map (· + 1)

namespace Train

/-- `Train.updateCoordinates`: project the clamped distance along the
current section's polyline, and take the bearing between the bracketing
polyline points.  (With a degenerate `lineLength = 0` the source computes
`NaN` indices and leaves the coordinates `undefined`-ish; in `ℚ` the
division yields index 0.  No claim depends on that corner.) -/
def updateCoordinates (geo : Geo) (t : Train) : Train :=
  let coordinates := WaySection.getCoordinates t.waySection
  if coordinates.length < 2 then t
  else
    let lineLength := geo.lineLen coordinates
    let clampedDistance := max 0 (min t.distanceAlongKm lineLength)
    let point := geo.alongPt coordinates clampedDistance
    let currentSegmentIndex :=
      (⌊clampedDistance / lineLength * ((coordinates.length : ℚ) - 1)⌋).toNat
    let nextSegmentIndex := min (currentSegmentIndex + 1) (coordinates.length - 1)
    if currentSegmentIndex ≠ nextSegmentIndex then
      { t with coordinates := point,
               bearing := geo.bearingOf (coordinates.getD currentSegmentIndex (0, 0))
                                        (coordinates.getD nextSegmentIndex (0, 0)) }
    else { t with coordinates := point }

/-- `Train.hasReachedEnd`: true when the backing WAY is missing or
degenerate, when its full geodesic length is zero, or when
`distanceAlongKm` has reached that full length.  (Note: this is the length
of the whole backing way via `infra.getWayDistance`, not the length of the
possibly-partial `waySection` slice.) -/
def hasReachedEnd (geo : Geo) (infra : Infra) (t : Train) : Bool :=
  match Infra.getWay infra t.waySection.wayId with
  | none => true
  | some way =>
    if way.nodes.length < 2 then true
    else
      let lineLength := Infra.getWayDistance geo infra t.waySection.wayId
      if lineLength = 0 then true
      else decide (t.distanceAlongKm ≥ lineLength)

/-- `Train.moveToNextWay`: advance to the next `WaySection` of the route
(reset `distanceAlongKm` to 0, recompute the route position); `false`
without change when the current way is not on the route, there is no next
section, or the next way is missing/degenerate. -/
def moveToNextWay (infra : Infra) (t : Train) : Train × Bool :=
  match sectionIndexOf t.waySection.wayId t.route.waySections with
  | none => (t, false)
  | some currentWayIndex =>
    let nextWayIndex := currentWayIndex + 1
    if nextWayIndex ≥ t.route.waySections.length then (t, false)
    else
      let nextWaySection := t.route.waySections.getD nextWayIndex t.waySection
      match Infra.getWay infra nextWaySection.wayId with
      | none => (t, false)
      | some nextWay =>
        if nextWay.nodes.length < 2 then (t, false)
        else
          let t' := { t with waySection := nextWaySection, distanceAlongKm := 0 }
          ({ t' with routePosition :=
               TrainRoute.getRoutePosition t.route nextWaySection.wayId 0 }, true)

/-- The walk of `Train.getDistanceToTrainAhead` over the route's sections
from the current one: `isFirst` tells whether the section under scrutiny is
the current one (`i === currentWayIndex`); `cum` is the accumulated
distance to the start of that section (for the current section, positions
are measured from the train itself). -/
def distAheadLoop (geo : Geo) (infra : Infra) (self : Train) (otherTrains : List Train) :
    List WaySection → Bool → ℚ → ℚ
  | [], _, _ => maxSafe
  | ws :: rest, isFirst, cum =>
    match Infra.getWay infra ws.wayId with
    | none => distAheadLoop geo infra self otherTrains rest false cum
    | some way =>
      if way.nodes.length < 2 then distAheadLoop geo infra self otherTrains rest false cum
      else
        let segmentLength := WaySection.getDistance geo ws
        if segmentLength = 0 then distAheadLoop geo infra self otherTrains rest false cum
        else
          let trainsOnSegment := otherTrains.filter
            (fun train => !(train.id == self.id) && train.waySection.wayId == ws.wayId)
          let candidates := trainsOnSegment.filterMap (fun train =>
            if isFirst then
              if train.distanceAlongKm > self.distanceAlongKm then
                some (cum + (train.distanceAlongKm - self.distanceAlongKm))
              else none
            else some (cum + train.distanceAlongKm))
          match candidates with
          | [] =>
            distAheadLoop geo infra self otherTrains rest false
              (cum + (if isFirst then max 0 (segmentLength - self.distanceAlongKm)
                      else segmentLength))
          | c :: cs => cs.foldl min c

/-- `Train.getDistanceToTrainAhead`: walk forward from the current section
summing lengths; the first section holding another vehicle ahead yields the
gap, otherwise the sentinel `MAX_SAFE_INTEGER`. -/
def getDistanceToTrainAhead (geo : Geo) (infra : Infra) (self : Train)
    (otherTrains : List Train) : ℚ :=
  match sectionIndexOf self.waySection.wayId self.route.waySections with
  | none => maxSafe
  | some currentWayIndex =>
    distAheadLoop geo infra self otherTrains
      (self.route.waySections.drop currentWayIndex) true 0

/-- `Train.getDistanceToNextStop`: distance and node id of the next cached
stop ahead, or the sentinel (`MAX_SAFE_INTEGER`, `none`). -/
def getDistanceToNextStop (geo : Geo) (t : Train) : ℚ × Option String :=
  match TrainRoute.getNextStopAhead geo t.route t.routePosition t.lastStopNodeId with
  | none => (maxSafe, none)
  | some nextStop => (nextStop.routePosition - t.routePosition, some nextStop.nodeId)

/-- `Train.calculateAcceleration`: collect the applicable acceleration
options in source order and take their minimum.  `velocity` and
`acceleration` are the vehicle's current values; `distanceToNextStop?`
is `none` when the caller omits the argument (`Train.update` always
passes it). -/
def calculateAcceleration (velocity acceleration : ℚ) (distanceToTrainAhead : ℚ)
    (distanceToNextStop? : Option ℚ) : ℚ :=
  let brakingDistance := velocity * velocity / (2 * baseDeceleration * 1000)
  let emergencyBrakingDistance := velocity * velocity / (2 * emergencyDeceleration * 1000)
  let accelerationOptions : List ℚ :=
    [baseAcceleration]
    ++ (if velocity ≥ maxSpeed then [0] else [])
    ++ (if distanceToTrainAhead ≤ brakingDistance then [-baseDeceleration] else [])
    ++ (if distanceToTrainAhead ≤ emergencyBrakingDistance then [-emergencyDeceleration] else [])
    ++ (match distanceToNextStop? with
        | none => []
        | some distanceToNextStop =>
          if distanceToNextStop < maxSafe ∧ velocity > 0 then
            let distanceToStopInMeters := distanceToNextStop * 1000
            let requiredDeceleration :=
              -(velocity * velocity) / (2 * distanceToStopInMeters)
            if requiredDeceleration > -baseDeceleration then
              [min baseAcceleration (acceleration + 0.5)]
            else if requiredDeceleration ≤ -emergencyDeceleration then
              [-emergencyDeceleration]
            else [requiredDeceleration]
          else [])
  jsMin accelerationOptions

/-- The moving part of `Train.update` (everything after the dwell check):
compute the gap ahead and the gap to the next stop, select the
acceleration, integrate velocity (clamped below at 0) and position,
detect arrival at a stop (5 m tolerance), refresh
coordinates, and report whether the end of the way was reached. -/
def updateMove (geo : Geo) (infra : Infra) (otherTrains : List Train) (deltaTime : ℚ)
    (t : Train) : Train × Bool :=
  let distanceToTrainAhead := getDistanceToTrainAhead geo infra t otherTrains
  let stopInfo := getDistanceToNextStop geo t
  let distanceToNextStop := stopInfo.1
  let nextStopNodeId := stopInfo.2
  let acceleration := calculateAcceleration t.velocity t.acceleration
    distanceToTrainAhead (some distanceToNextStop)
  let velocity := max (t.velocity + acceleration * deltaTime) 0
  let distanceToMove := velocity * deltaTime / 1000
  let t₁ := { t with acceleration := acceleration, velocity := velocity,
                     distanceAlongKm := t.distanceAlongKm + distanceToMove,
                     routePosition := t.routePosition + distanceToMove }
  let t₂ :=
    if distanceToNextStop ≤ 0.005 then
      { t₁ with isAtStop := true, lastStopNodeId := nextStopNodeId,
                remainingDwellTime := t₁.stopDwellTime }
    else t₁
  let t₃ := updateCoordinates geo t₂
  (t₃, hasReachedEnd geo infra t₃)

/-- `Train.update`: while dwelling with remaining time, only count down and
report not-finished; when the countdown has expired, clear the dwell state
and continue with the moving logic in the same call. -/
def update (geo : Geo) (infra : Infra) (otherTrains : List Train) (deltaTime : ℚ)
    (t : Train) : Train × Bool :=
  if t.isAtStop then
    if t.remainingDwellTime > 0 then
      ({ t with remainingDwellTime := t.remainingDwellTime - deltaTime }, false)
    else
      updateMove geo infra otherTrains deltaTime
        { t with isAtStop := false, remainingDwellTime := 0 }
  else updateMove geo infra otherTrains deltaTime t

end Train

/-- The `Train` constructor.  `Except.error` models the `TypeError` raised
when the route has no sections (`route.waySections[0]` is `undefined` and
`this.waySection.wayId` dereferences it inside `getRoutePosition`). -/
def mkTrain (geo : Geo) (route : TrainRoute) (id : String) (dwellTime : ℚ) :
    Except String Train :=
  match route.waySections with
  | [] => .error "TypeError: cannot read wayId of undefined"
  | waySection :: _ =>
    let t : Train :=
      { id := id, waySection := waySection, distanceAlongKm := 0, velocity := 0,
        acceleration := 0, coordinates := (0, 0), bearing := 0, route := route,
        routePosition := TrainRoute.getRoutePosition route waySection.wayId 0,
        isAtStop := false, stopDwellTime := dwellTime, remainingDwellTime := 0,
        lastStopNodeId := none }
    .ok (Train.updateCoordinates geo t)

/-! ### TrainManager -/

/-- The fleet: vehicle id → vehicle, in insertion order (JS `Map`). -/
abbrev Fleet := List (String × Train)

/-- `TrainManager` state: the fleet map and the monotone id counter. -/
structure TrainManager where
  trains : Fleet
  nextTrainId : Nat

namespace TrainManager

/-- `TrainManager.addTrain`.  `randomPick` models
`Math.floor(Math.random() * wayIds.length)` (a number below the length of
the way-id list).  Returns `ok (none, ·)` when the network has no ways or
the randomly picked way is missing/degenerate; propagates the constructor's
`TypeError` as `error` (this happens exactly when the route has no
sections); otherwise registers a fresh train at the start of the route
with velocity 0 m/s and acceleration 1 m/s². -/
def addTrain (geo : Geo) (infra : Infra) (route : TrainRoute) (dwellTime : ℚ)
    (randomPick : Nat) (m : TrainManager) : Except String (Option String × TrainManager) :=
  let wayIds := Infra.getAllWayIds infra
  if wayIds.length = 0 then .ok (none, m)
  else
    let randomWayId := wayIds.getD randomPick ""
    match Infra.getWay infra randomWayId with
    | none => .ok (none, m)
    | some way =>
      if way.nodes.length < 2 then .ok (none, m)
      else
        let trainId := "train-" ++ toString m.nextTrainId
        match mkTrain geo route trainId dwellTime with
        | .error e => .error e
        | .ok train =>
          let train := { train with velocity := 0, acceleration := 1 }
          .ok (some trainId,
               { trains := m.trains ++ [(trainId, train)],
                 nextTrainId := m.nextTrainId + 1 })

/-- One iteration of the `trains.forEach` body inside
`TrainManager.updateTrains`: update the train with this id against the
live fleet (the `allTrains` array holds references to the same objects, so
it reflects every in-place mutation made earlier in the tick), then either
move it to its next section or mark it for removal when the update reports
the end of its way.  The third component records which ids reported
reached-end (a proof-side trace of the local `reachedEnd` flags). -/
def tickStep (geo : Geo) (infra : Infra) (deltaTime : ℚ)
    (st : Fleet × List String × List String) (trainId : String) :
    Fleet × List String × List String :=
  let fleet := st.1
  let trainsToRemove := st.2.1
  let reachedIds := st.2.2
  match alookup fleet trainId with
  | none => st
  | some train =>
    let allTrains := fleet.map Prod.snd
    let result := Train.update geo infra allTrains deltaTime train
    if result.2 then
      let moved := Train.moveToNextWay infra result.1
      if moved.2 then
        (aset fleet trainId moved.1, trainsToRemove, reachedIds ++ [trainId])
      else
        (aset fleet trainId moved.1, trainsToRemove ++ [trainId], reachedIds ++ [trainId])
    else (aset fleet trainId result.1, trainsToRemove, reachedIds)

/-- The tick fold over the fleet's ids (captured before iterating, as the
`Map.forEach` order is). -/
def tickFold (geo : Geo) (infra : Infra) (deltaTime : ℚ) (fleet : Fleet) :
    Fleet × List String × List String :=
  (fleet.map Prod.fst).foldl (tickStep geo infra deltaTime) (fleet, [], [])

/-- `TrainManager.updateTrains`: scale the elapsed time by the simulation
rate, run every vehicle's update in map order, then delete the vehicles
that reached their route's end and could not advance. -/
def updateTrains (geo : Geo) (infra : Infra) (deltaTime simulationRate : ℚ)
    (fleet : Fleet) : Fleet :=
  let adjustedDeltaTime := deltaTime * simulationRate
  let r := tickFold geo infra adjustedDeltaTime fleet
  r.1.filter (fun p => !(r.2.1.contains p.1))

end TrainManager

/-! ### A concrete world for counterexamples and witnesses

Nodes are placed on the equator, where the geodesic length of a polyline
is proportional to the longitude span; `eqLen` is that exact length with
1 unit of longitude as the unit of distance. -/

/-- Exact equatorial polyline length: sum of absolute longitude
differences of consecutive points. -/
def eqLen (pts : List (ℚ × ℚ)) : ℚ :=
  (pts.zip (pts.drop 1)).foldl (fun acc pq => acc + |pq.2.1 - pq.1.1|) 0

/-- Concrete geometry: equatorial lengths; the projection/interpolation
functions are irrelevant to the kinematics scenarios and return constants. -/
def cGeo : Geo :=
  { lineLen := eqLen, nearestLoc := fun _ _ => 0, alongPt := fun _ _ => (0, 0),
    bearingOf := fun _ _ => 0 }

/-- A network with a single 100 km way `w` from node `a` to node `b`. -/
def cInfra : Infra :=
  { ways := [("w", { nodes := ["a", "b"], bidi := true })],
    node_coords := [("a", (0, 0)), ("b", (100, 0))] }

/-- The way record of `w`. -/
def cWay : Way := { nodes := ["a", "b"], bidi := true }

/-- The full-segment section of `w` (what `fromService` builds for the
single-way service). -/
def cWS : WaySection :=
  { wayId := "w", startNodeId := "a", endNodeId := "b",
    nodeIds := ["a", "b"], points := [(0, 0), (100, 0)] }

/-- The route over `w` with no stops. -/
def cRoute : TrainRoute :=
  { infra := cInfra, waySections := [cWS], stopNodeIds := [],
    sectionDistances := [0], totalDistance := 100 }

theorem cRoute_fromService :
    TrainRoute.fromService cGeo cInfra { stop_node_ids := [], route_way_ids := ["w"] }
      = Except.ok cRoute := by
  norm_num +decide [TrainRoute.fromService, TrainRoute.buildRoute, mkWaySection,
    Infra.getWay, alookup, jsIndexOf, Infra.getNodeCoords, WaySection.getDistance,
    cGeo, cInfra, cWS, cRoute, eqLen, mapExcept, mapOption]

theorem cEqLen : eqLen [(0 : ℚ × ℚ), (100, 0)] = 100 := by
  simp [eqLen]

theorem cCoordsA : Infra.getNodeCoords cInfra "a" = some 0 := rfl

theorem cCoordsB : Infra.getNodeCoords cInfra "b" = some (100, 0) := rfl

theorem cGeo_lineLen : cGeo.lineLen = eqLen := rfl

theorem cGeo_alongPt : cGeo.alongPt = fun _ _ => ((0 : ℚ), (0 : ℚ)) := rfl

theorem cGeo_bearingOf : cGeo.bearingOf = fun _ _ => (0 : ℚ) := rfl

theorem cGetWay : Infra.getWay cInfra "w" = some cWay := rfl

theorem cWS_wayId : cWS.wayId = "w" := rfl

theorem cWS_points : cWS.points = [(0, 0), (100, 0)] := rfl

theorem cWay_nodes : cWay.nodes = ["a", "b"] := rfl

theorem cRoute_sections : cRoute.waySections = [cWS] := rfl

theorem cRoute_stopIds : cRoute.stopNodeIds = [] := rfl

theorem cWayDist : Infra.getWayDistance cGeo cInfra "w" = 100 := by
  simp +decide [Infra.getWayDistance, cGetWay, cWay_nodes, cCoordsA, cCoordsB,
    cGeo_lineLen, List.filterMap_cons, cEqLen]

theorem cSecDist : WaySection.getDistance cGeo cWS = 100 := by
  simp [WaySection.getDistance, cWS_points, cGeo_lineLen, cEqLen]

theorem cStops : TrainRoute.getCachedStopPositions cGeo cRoute = [] := by
  simp [TrainRoute.getCachedStopPositions, cRoute_stopIds]

theorem cNoStopAhead (t : Train) (h : t.route = cRoute) :
    Train.getDistanceToNextStop cGeo t = (maxSafe, none) := by
  simp [Train.getDistanceToNextStop, TrainRoute.getNextStopAhead, h, cStops,
    TrainRoute.nextStopLoop]

/-- Train `t1`: at the start of `w`, 20 m/s. -/
def tA : Train :=
  { id := "t1", waySection := cWS, distanceAlongKm := 0, velocity := 20, acceleration := 0,
    coordinates := (0, 0), bearing := 0, route := cRoute, routePosition := 0,
    isAtStop := false, stopDwellTime := 10, remainingDwellTime := 0, lastStopNodeId := none }

/-- Train `t2`: 0.1 km ahead of `t1` on the same section, 10 m/s. -/
def tB : Train :=
  { tA with id := "t2", distanceAlongKm := 0.1, velocity := 10, routePosition := 0.1 }

theorem gapA : Train.getDistanceToTrainAhead cGeo cInfra tA [tA, tB] = 0.1 := by
  norm_num +decide [Train.getDistanceToTrainAhead, Train.distAheadLoop, sectionIndexOf,
    cGetWay, cWay_nodes, cSecDist, List.filterMap_cons, cRoute_sections, cWS_wayId,
    tA, tB, maxSafe, jsMin]

/-- `t1` after one 1 s tick in which it saw `t2` at its pre-tick position
(gap 0.1 km = its braking distance, so it brakes at 2 m/s²). -/
def tA1 : Train :=
  { tA with
      acceleration := -2, velocity := 18,
      distanceAlongKm := 0.018, routePosition := 0.018 }

theorem updA : Train.update cGeo cInfra [tA, tB] 1 tA = (tA1, false) := by
  rw [show Train.update cGeo cInfra [tA, tB] 1 tA
      = Train.updateMove cGeo cInfra [tA, tB] 1 tA from by simp [Train.update, tA]]
  rw [Train.updateMove, gapA, cNoStopAhead tA rfl]
  norm_num +decide [Train.calculateAcceleration, jsMin, maxSafe, maxSpeed,
    baseAcceleration, baseDeceleration, emergencyDeceleration,
    Train.updateCoordinates, WaySection.getCoordinates, Train.hasReachedEnd,
    cGetWay, cWay_nodes, cWayDist, cWS_points, cWS_wayId, cGeo_lineLen, cGeo_alongPt,
    cGeo_bearingOf, cEqLen, tA, tA1]

theorem gapB1 : Train.getDistanceToTrainAhead cGeo cInfra tB [tA1, tB] = maxSafe := by
  norm_num +decide [Train.getDistanceToTrainAhead, Train.distAheadLoop, sectionIndexOf,
    cGetWay, cWay_nodes, cSecDist, List.filterMap_cons, cRoute_sections, cWS_wayId,
    tA, tA1, tB, maxSafe, jsMin]

theorem gapB0 : Train.getDistanceToTrainAhead cGeo cInfra tB [tB, tA] = maxSafe := by
  norm_num +decide [Train.getDistanceToTrainAhead, Train.distAheadLoop, sectionIndexOf,
    cGetWay, cWay_nodes, cSecDist, List.filterMap_cons, cRoute_sections, cWS_wayId,
    tA, tB, maxSafe, jsMin]

/-- `t2` after one 1 s tick with nothing ahead: accelerates to 11 m/s. -/
def tB1 : Train :=
  { tB with
      acceleration := 1, velocity := 11,
      distanceAlongKm := 0.111, routePosition := 0.111 }

theorem updB1 : Train.update cGeo cInfra [tA1, tB] 1 tB = (tB1, false) := by
  rw [show Train.update cGeo cInfra [tA1, tB] 1 tB
      = Train.updateMove cGeo cInfra [tA1, tB] 1 tB from by simp [Train.update, tA, tB]]
  rw [Train.updateMove, gapB1, cNoStopAhead tB rfl]
  norm_num +decide [Train.calculateAcceleration, jsMin, maxSafe, maxSpeed,
    baseAcceleration, baseDeceleration, emergencyDeceleration,
    Train.updateCoordinates, WaySection.getCoordinates, Train.hasReachedEnd,
    cGetWay, cWay_nodes, cWayDist, cWS_points, cWS_wayId, cGeo_lineLen, cGeo_alongPt,
    cGeo_bearingOf, cEqLen, tA, tB, tB1]

theorem updB0 : Train.update cGeo cInfra [tB, tA] 1 tB = (tB1, false) := by
  rw [show Train.update cGeo cInfra [tB, tA] 1 tB
      = Train.updateMove cGeo cInfra [tB, tA] 1 tB from by simp [Train.update, tA, tB]]
  rw [Train.updateMove, gapB0, cNoStopAhead tB rfl]
  norm_num +decide [Train.calculateAcceleration, jsMin, maxSafe, maxSpeed,
    baseAcceleration, baseDeceleration, emergencyDeceleration,
    Train.updateCoordinates, WaySection.getCoordinates, Train.hasReachedEnd,
    cGetWay, cWay_nodes, cWayDist, cWS_points, cWS_wayId, cGeo_lineLen, cGeo_alongPt,
    cGeo_bearingOf, cEqLen, tA, tB, tB1]

theorem gapA2 : Train.getDistanceToTrainAhead cGeo cInfra tA [tB1, tA] = 0.111 := by
  norm_num +decide [Train.getDistanceToTrainAhead, Train.distAheadLoop, sectionIndexOf,
    cGetWay, cWay_nodes, cSecDist, List.filterMap_cons, cRoute_sections, cWS_wayId,
    tA, tB, tB1, maxSafe, jsMin]

/-- `t1` after a 1 s tick in which it observed `t2`'s already-updated
position (gap 0.111 km, beyond its 0.1 km braking distance: it
accelerates instead of braking). -/
def tA2 : Train :=
  { tA with
      acceleration := 1, velocity := 21,
      distanceAlongKm := 0.021, routePosition := 0.021 }

theorem updA2 : Train.update cGeo cInfra [tB1, tA] 1 tA = (tA2, false) := by
  rw [show Train.update cGeo cInfra [tB1, tA] 1 tA
      = Train.updateMove cGeo cInfra [tB1, tA] 1 tA from by simp [Train.update, tA]]
  rw [Train.updateMove, gapA2, cNoStopAhead tA rfl]
  norm_num +decide [Train.calculateAcceleration, jsMin, maxSafe, maxSpeed,
    baseAcceleration, baseDeceleration, emergencyDeceleration,
    Train.updateCoordinates, WaySection.getCoordinates, Train.hasReachedEnd,
    cGetWay, cWay_nodes, cWayDist, cWS_points, cWS_wayId, cGeo_lineLen, cGeo_alongPt,
    cGeo_bearingOf, cEqLen, tA, tA2]

theorem tick12 : TrainManager.updateTrains cGeo cInfra 1 1 [("t1", tA), ("t2", tB)]
    = [("t1", tA1), ("t2", tB1)] := by
  norm_num +decide [TrainManager.updateTrains, TrainManager.tickFold,
    TrainManager.tickStep, alookup, aset, updA, updB1]

theorem tick21 : TrainManager.updateTrains cGeo cInfra 1 1 [("t2", tB), ("t1", tA)]
    = [("t2", tB1), ("t1", tA2)] := by
  norm_num +decide [TrainManager.updateTrains, TrainManager.tickFold,
    TrainManager.tickStep, alookup, aset, updB0, updA2]

/-- C1.  The claim is false on the code: `updateTrains` captures the array
of vehicle *references* before iterating, not a snapshot of their
positions, so a vehicle updated later in a tick reads the post-move
position of a vehicle updated earlier, and the post-tick fleet state
depends on the update order.  Witnessed by the same two-train fleet in its
two insertion orders: after one 1 s tick the trailing train `t1` ends at
18 m/s (it braked on the pre-move 0.1 km gap) in one order but at 21 m/s
(it accelerated on the already-moved 0.111 km gap) in the other. -/
theorem claim1_counterexample :
    List.Perm [("t1", tA), ("t2", tB)] [("t2", tB), ("t1", tA)] ∧
    (alookup (TrainManager.updateTrains cGeo cInfra 1 1 [("t1", tA), ("t2", tB)]) "t1").map
        Train.velocity = some 18 ∧
    (alookup (TrainManager.updateTrains cGeo cInfra 1 1 [("t2", tB), ("t1", tA)]) "t1").map
        Train.velocity = some 21 ∧
    (18 : ℚ) ≠ 21 := by
  refine ⟨List.Perm.swap _ _ _, ?_, ?_, by norm_num⟩
  · rw [tick12]; simp [alookup, tA1, tA]
  · rw [tick21]; simp [alookup, tA2, tA]

/-- C1 (amended).  What the tick actually guarantees: the vehicle *list*
(membership) is captured before iterating, but the entries alias the live
train objects, so a vehicle updated later in the tick computes its spacing
from the current — possibly already-moved-this-tick — position of a
vehicle updated earlier, and the post-tick fleet state can depend on the
update order.  Concretely: when `t2` is updated first it moves to
`tB1`; `t1`'s spacing computation then returns exactly the gap to `tB1`'s
post-move position, which differs from the pre-tick gap, and the two
update orders produce different post-tick velocities for `t1`. -/
theorem claim1_theorem :
    (Train.update cGeo cInfra [tB, tA] 1 tB).1 = tB1 ∧
    Train.getDistanceToTrainAhead cGeo cInfra tA [tB1, tA]
      = tB1.distanceAlongKm - tA.distanceAlongKm ∧
    tB1.distanceAlongKm - tA.distanceAlongKm
      ≠ tB.distanceAlongKm - tA.distanceAlongKm ∧
    (alookup (TrainManager.updateTrains cGeo cInfra 1 1 [("t1", tA), ("t2", tB)]) "t1").map
        Train.velocity
      ≠ (alookup (TrainManager.updateTrains cGeo cInfra 1 1 [("t2", tB), ("t1", tA)]) "t1").map
        Train.velocity := by
  refine ⟨by rw [updB0], ?_, ?_, ?_⟩
  · rw [gapA2]
    norm_num [tA, tB, tB1]
  · norm_num [tA, tB, tB1]
  · rw [tick12, tick21]
    simp [alookup, tA1, tA2, tA]

/-! Scenario for C5: a dwelling leader and a fast trailer on the same
100 km section, with a 100 s tick. -/

/-- The trailing train: start of `w`, 20 m/s. -/
def tT : Train := { tA with id := "T" }

/-- The leading train: 0.2 km ahead, dwelling at a stop for another
1000 s. -/
def tL : Train :=
  { tA with
      id := "L", distanceAlongKm := 0.2, velocity := 0, routePosition := 0.2,
      isAtStop := true, remainingDwellTime := 1000 }

theorem gapT : Train.getDistanceToTrainAhead cGeo cInfra tT [tT, tL] = 0.2 := by
  norm_num +decide [Train.getDistanceToTrainAhead, Train.distAheadLoop, sectionIndexOf,
    cGetWay, cWay_nodes, cSecDist, List.filterMap_cons, cRoute_sections, cWS_wayId,
    tA, tT, tL, maxSafe, jsMin]

/-- The trailer after the 100 s tick: it saw a 0.2 km gap (beyond its
0.1 km braking distance), accelerated, and moved 12 km — far beyond the
leader. -/
def tT1 : Train :=
  { tT with
      acceleration := 1, velocity := 120,
      distanceAlongKm := 12, routePosition := 12 }

theorem updT : Train.update cGeo cInfra [tT, tL] 100 tT = (tT1, false) := by
  rw [show Train.update cGeo cInfra [tT, tL] 100 tT
      = Train.updateMove cGeo cInfra [tT, tL] 100 tT from by simp [Train.update, tA, tT]]
  rw [Train.updateMove, gapT, cNoStopAhead tT rfl]
  norm_num +decide [Train.calculateAcceleration, jsMin, maxSafe, maxSpeed,
    baseAcceleration, baseDeceleration, emergencyDeceleration,
    Train.updateCoordinates, WaySection.getCoordinates, Train.hasReachedEnd,
    cGetWay, cWay_nodes, cWayDist, cWS_points, cWS_wayId, cGeo_lineLen, cGeo_alongPt,
    cGeo_bearingOf, cEqLen, tA, tT, tT1]

/-- The dwelling leader only counts its dwell down. -/
def tL1 : Train := { tL with remainingDwellTime := 900 }

theorem updL : Train.update cGeo cInfra [tT1, tL] 100 tL = (tL1, false) := by
  norm_num [Train.update, tA, tL, tL1]

theorem tickTL : TrainManager.updateTrains cGeo cInfra 100 1 [("T", tT), ("L", tL)]
    = [("T", tT1), ("L", tL1)] := by
  norm_num +decide [TrainManager.updateTrains, TrainManager.tickFold,
    TrainManager.tickStep, alookup, aset, updT, updL]

/-! Scenario for C10: a lone train just below the speed cap. -/

/-- A lone train at 26 m/s, just below `maxSpeed ≈ 26.82` m/s. -/
def t26 : Train := { tA with id := "s", velocity := 26 }

theorem gap26 : Train.getDistanceToTrainAhead cGeo cInfra t26 [t26] = maxSafe := by
  norm_num +decide [Train.getDistanceToTrainAhead, Train.distAheadLoop, sectionIndexOf,
    cGetWay, cWay_nodes, cSecDist, List.filterMap_cons, cRoute_sections, cWS_wayId,
    tA, t26, maxSafe, jsMin]

/-- After one 1 s tick: full base acceleration pushed it to 27 m/s, above
the nominal speed cap. -/
def t27 : Train :=
  { t26 with
      acceleration := 1, velocity := 27,
      distanceAlongKm := 0.027, routePosition := 0.027 }

theorem upd26 : Train.update cGeo cInfra [t26] 1 t26 = (t27, false) := by
  rw [show Train.update cGeo cInfra [t26] 1 t26
      = Train.updateMove cGeo cInfra [t26] 1 t26 from by simp [Train.update, tA, t26]]
  rw [Train.updateMove, gap26, cNoStopAhead t26 rfl]
  norm_num +decide [Train.calculateAcceleration, jsMin, maxSafe, maxSpeed,
    baseAcceleration, baseDeceleration, emergencyDeceleration,
    Train.updateCoordinates, WaySection.getCoordinates, Train.hasReachedEnd,
    cGetWay, cWay_nodes, cWayDist, cWS_points, cWS_wayId, cGeo_lineLen, cGeo_alongPt,
    cGeo_bearingOf, cEqLen, tA, t26, t27]

theorem gap27 : Train.getDistanceToTrainAhead cGeo cInfra t27 [t27] = maxSafe := by
  norm_num +decide [Train.getDistanceToTrainAhead, Train.distAheadLoop, sectionIndexOf,
    cGetWay, cWay_nodes, cSecDist, List.filterMap_cons, cRoute_sections, cWS_wayId,
    tA, t26, t27, maxSafe, jsMin]

/-- One further tick: the cap now only contributes the 0 candidate, so the
26.8 m/s excess velocity persists at 27 m/s instead of being clamped down. -/
def t27b : Train :=
  { t27 with
      acceleration := 0, distanceAlongKm := 0.054, routePosition := 0.054 }

theorem upd27 : Train.update cGeo cInfra [t27] 1 t27 = (t27b, false) := by
  rw [show Train.update cGeo cInfra [t27] 1 t27
      = Train.updateMove cGeo cInfra [t27] 1 t27 from by simp [Train.update, tA, t26, t27]]
  rw [Train.updateMove, gap27, cNoStopAhead t27 rfl]
  norm_num +decide [Train.calculateAcceleration, jsMin, maxSafe, maxSpeed,
    baseAcceleration, baseDeceleration, emergencyDeceleration,
    Train.updateCoordinates, WaySection.getCoordinates, Train.hasReachedEnd,
    cGetWay, cWay_nodes, cWayDist, cWS_points, cWS_wayId, cGeo_lineLen, cGeo_alongPt,
    cGeo_bearingOf, cEqLen, tA, t26, t27, t27b]

theorem tick26 : TrainManager.updateTrains cGeo cInfra 1 1 [("s", t26)] = [("s", t27)] := by
  norm_num +decide [TrainManager.updateTrains, TrainManager.tickFold,
    TrainManager.tickStep, alookup, aset, upd26]

theorem tick27 : TrainManager.updateTrains cGeo cInfra 1 1 [("s", t27)] = [("s", t27b)] := by
  norm_num +decide [TrainManager.updateTrains, TrainManager.tickFold,
    TrainManager.tickStep, alookup, aset, upd27]

/-- C10.  The configured maximum speed is not a hard cap: `t26` is Moving
below `maxSpeed`, yet a single 1 s tick takes it to 27 m/s, strictly above
`maxSpeed` (the post-update velocity is clamped below at 0 but not
above), and a further tick leaves the velocity at 27 m/s (the cap only
contributes a zero-acceleration candidate once the velocity is already at
or above the maximum) rather than reducing it to the maximum. -/
theorem claim10_theorem :
    t26.velocity < maxSpeed ∧
    TrainManager.updateTrains cGeo cInfra 1 1 [("s", t26)] = [("s", t27)] ∧
    t27.velocity > maxSpeed ∧
    TrainManager.updateTrains cGeo cInfra 1 1 [("s", t27)] = [("s", t27b)] ∧
    t27b.velocity = t27.velocity ∧
    t27b.velocity > maxSpeed := by
  refine ⟨?_, tick26, ?_, tick27, rfl, ?_⟩
  · norm_num [t26, tA, maxSpeed]
  · norm_num [t27, t26, tA, maxSpeed]
  · norm_num [t27b, t27, t26, tA, maxSpeed]

/-- C5.  The claim is false on the code: there is no upper bound on the
per-tick displacement, so with a large enough `Δt` a trailing vehicle
passes straight through the leader.  Witnessed by trains `T` (20 m/s,
0 km) and `L` (dwelling, 0.2 km) on the same section of the same route:
after a single 100 s tick the trailing train is at 12 km, far beyond the
leader, which is still at 0.2 km. -/
theorem claim5_counterexample :
    tT.waySection = tL.waySection ∧ tT.route = tL.route ∧
    tT.distanceAlongKm < tL.distanceAlongKm ∧
    TrainManager.updateTrains cGeo cInfra 100 1 [("T", tT), ("L", tL)]
      = [("T", tT1), ("L", tL1)] ∧
    tT1.waySection = tL1.waySection ∧
    tT1.distanceAlongKm > tL1.distanceAlongKm := by
  refine ⟨rfl, rfl, by norm_num [tT, tL, tA], tickTL, rfl, by norm_num [tT1, tL1, tT, tL, tA]⟩

/-! Scenario for C2: a route whose first `TrackSection` is a proper slice
(`u` from `a` to `b`, 1 km) of a longer backing way (`u` = `a,b,c`, 2 km). -/

/-- Network with way `u` = `a,b,c` (2 km) and way `v` = `b,d` (6 km). -/
def dInfra : Infra :=
  { ways := [("u", { nodes := ["a", "b", "c"], bidi := true }),
             ("v", { nodes := ["b", "d"], bidi := true })],
    node_coords := [("a", (0, 0)), ("b", (1, 0)), ("c", (2, 0)), ("d", (7, 0))] }

/-- The partial slice of `u` between `a` and `b` that route assembly
produces (the connecting node with `v` is `b`). -/
def uSlice : WaySection :=
  { wayId := "u", startNodeId := "a", endNodeId := "b",
    nodeIds := ["a", "b"], points := [(0, 0), (1, 0)] }

/-- The full section of `v`. -/
def vSec : WaySection :=
  { wayId := "v", startNodeId := "b", endNodeId := "d",
    nodeIds := ["b", "d"], points := [(1, 0), (7, 0)] }

/-- The assembled route over `u`, `v`. -/
def dRoute : TrainRoute :=
  { infra := dInfra, waySections := [uSlice, vSec], stopNodeIds := [],
    sectionDistances := [0, 1], totalDistance := 7 }

theorem dRoute_fromService :
    TrainRoute.fromService cGeo dInfra { stop_node_ids := [], route_way_ids := ["u", "v"] }
      = Except.ok dRoute := by
  norm_num +decide [TrainRoute.fromService, TrainRoute.buildRoute, mkWaySection,
    Infra.getWay, alookup, jsIndexOf, Infra.getNodeCoords, WaySection.getDistance,
    TrainRoute.connectStep, TrainRoute.fixupEnds, findCommonElement, jsIncludes,
    List.range_succ, dInfra, uSlice, vSec, dRoute, cGeo_lineLen, eqLen, mapExcept,
    mapOption]

theorem dCoordsA : Infra.getNodeCoords dInfra "a" = some 0 := rfl

theorem dCoordsB : Infra.getNodeCoords dInfra "b" = some (1, 0) := rfl

theorem dCoordsC : Infra.getNodeCoords dInfra "c" = some (2, 0) := rfl

theorem dCoordsD : Infra.getNodeCoords dInfra "d" = some (7, 0) := rfl

theorem dSecDistU : WaySection.getDistance cGeo uSlice = 1 := by
  simp [WaySection.getDistance, uSlice, cGeo_lineLen, eqLen]

theorem dSecDistV : WaySection.getDistance cGeo vSec = 6 := by
  norm_num [WaySection.getDistance, vSec, cGeo_lineLen, eqLen, abs_of_nonneg]

theorem dGetWayU : Infra.getWay dInfra "u" = some { nodes := ["a", "b", "c"], bidi := true } := rfl

theorem dGetWayV : Infra.getWay dInfra "v" = some { nodes := ["b", "d"], bidi := true } := rfl

theorem dWayDistU : Infra.getWayDistance cGeo dInfra "u" = 2 := by
  norm_num +decide [Infra.getWayDistance, dGetWayU, dCoordsA, dCoordsB, dCoordsC,
    dCoordsD, cGeo_lineLen, List.filterMap_cons, eqLen]

theorem dWayDistV : Infra.getWayDistance cGeo dInfra "v" = 6 := by
  norm_num +decide [Infra.getWayDistance, dGetWayV, dCoordsA, dCoordsB, dCoordsC,
    dCoordsD, cGeo_lineLen, List.filterMap_cons, eqLen]

theorem dStops : TrainRoute.getCachedStopPositions cGeo dRoute = [] := by
  simp [TrainRoute.getCachedStopPositions, dRoute]

theorem dNoStopAhead (t : Train) (h : t.route = dRoute) :
    Train.getDistanceToNextStop cGeo t = (maxSafe, none) := by
  simp [Train.getDistanceToNextStop, TrainRoute.getNextStopAhead, h, dStops,
    TrainRoute.nextStopLoop]

/-- A stationary train on the `u`-slice at 1.5 km: beyond the end of its
1 km `TrackSection`, but short of the 2 km backing way. -/
def tP : Train :=
  { id := "P", waySection := uSlice, distanceAlongKm := 1.5, velocity := 0,
    acceleration := 0, coordinates := (0, 0), bearing := 0, route := dRoute,
    routePosition := 1.5, isAtStop := false, stopDwellTime := 10,
    remainingDwellTime := 0, lastStopNodeId := none }

theorem gapP : Train.getDistanceToTrainAhead cGeo dInfra tP [tP] = maxSafe := by
  norm_num +decide [Train.getDistanceToTrainAhead, Train.distAheadLoop, sectionIndexOf,
    dGetWayU, dGetWayV, dSecDistU, dSecDistV, List.filterMap_cons,
    tP, dRoute, uSlice, vSec, maxSafe, jsMin]

/-- `tP` after a 1 s tick: it is still treated as mid-way (the reached-end
test compares against the full 2 km backing way) and keeps moving. -/
def tP1 : Train :=
  { tP with
      acceleration := 1, velocity := 1,
      distanceAlongKm := 1.501, routePosition := 1.501 }

theorem updP : Train.update cGeo dInfra [tP] 1 tP = (tP1, false) := by
  rw [show Train.update cGeo dInfra [tP] 1 tP
      = Train.updateMove cGeo dInfra [tP] 1 tP from by simp [Train.update, tP]]
  rw [Train.updateMove, gapP, dNoStopAhead tP rfl]
  norm_num +decide [Train.calculateAcceleration, jsMin, maxSafe, maxSpeed,
    baseAcceleration, baseDeceleration, emergencyDeceleration,
    Train.updateCoordinates, WaySection.getCoordinates, Train.hasReachedEnd,
    dGetWayU, dWayDistU,
    tP, tP1, uSlice, cGeo_lineLen, cGeo_alongPt, cGeo_bearingOf, eqLen]

/-- C2.  The claim is false on the code: `hasReachedEnd` compares
`distanceAlongKm` against `infra.getWayDistance`, the geodesic length of
the FULL backing way, not the length of the possibly-partial
`TrackSection` slice.  Witness: `tP` sits at 1.5 km on a 1 km slice of a
2 km way (a route produced by `fromService`), yet its update reports
"not reached". -/
theorem claim2_counterexample :
    TrainRoute.fromService cGeo dInfra { stop_node_ids := [], route_way_ids := ["u", "v"] }
      = Except.ok tP.route ∧
    WaySection.getDistance cGeo tP.waySection = 1 ∧
    tP.distanceAlongKm ≥ WaySection.getDistance cGeo tP.waySection ∧
    WaySection.getDistance cGeo tP.waySection
      < Infra.getWayDistance cGeo dInfra tP.waySection.wayId ∧
    (Train.update cGeo dInfra [tP] 1 tP).2 = false := by
  refine ⟨dRoute_fromService, ?_, ?_, ?_, by rw [updP]⟩
  · show WaySection.getDistance cGeo uSlice = 1
    exact dSecDistU
  · show (1.5 : ℚ) ≥ WaySection.getDistance cGeo uSlice
    rw [dSecDistU]; norm_num
  · show WaySection.getDistance cGeo uSlice < Infra.getWayDistance cGeo dInfra "u"
    rw [dSecDistU, dWayDistU]; norm_num

/-- C2 (amended).  A Moving vehicle's update reports "reached end of
section" exactly when its distance-along-section is at least the geodesic
length of the FULL backing way (via `getWayDistance`; a missing or
degenerate backing way, or one of zero length, reports reached
immediately) — not the length of the possibly-partial `TrackSection`
slice.  The Fleet Manager then advances the vehicle to the next
`TrackSection` of its Route with distance-along-section reset to 0 and
route position recomputed from the cumulative table, or removes it from
the fleet when no next section exists. -/
theorem claim2_theorem :
    (∀ (geo : Geo) (infra : Infra) (t : Train),
      Train.hasReachedEnd geo infra t = true ↔
        ∀ way, Infra.getWay infra t.waySection.wayId = some way →
          2 ≤ way.nodes.length →
          (Infra.getWayDistance geo infra t.waySection.wayId = 0 ∨
           Infra.getWayDistance geo infra t.waySection.wayId ≤ t.distanceAlongKm)) ∧
    (∀ (infra : Infra) (t : Train) (i : Nat) (next : WaySection) (way : Way),
      sectionIndexOf t.waySection.wayId t.route.waySections = some i →
      t.route.waySections.getD (i + 1) t.waySection = next →
      i + 1 < t.route.waySections.length →
      Infra.getWay infra next.wayId = some way →
      2 ≤ way.nodes.length →
      Train.moveToNextWay infra t
        = ({ t with
              waySection := next, distanceAlongKm := 0,
              routePosition := TrainRoute.getRoutePosition t.route next.wayId 0 }, true)) ∧
    (∀ (infra : Infra) (t : Train) (i : Nat),
      sectionIndexOf t.waySection.wayId t.route.waySections = some i →
      t.route.waySections.length ≤ i + 1 →
      Train.moveToNextWay infra t = (t, false)) ∧
    (∀ (geo : Geo) (infra : Infra) (dt rate : ℚ) (id : String) (t t' : Train),
      Train.update geo infra [t] (dt * rate) t = (t', true) →
      (Train.moveToNextWay infra t').2 = false →
      TrainManager.updateTrains geo infra dt rate [(id, t)] = []) ∧
    (∀ (geo : Geo) (infra : Infra) (dt rate : ℚ) (id : String) (t t' t'' : Train),
      Train.update geo infra [t] (dt * rate) t = (t', true) →
      Train.moveToNextWay infra t' = (t'', true) →
      TrainManager.updateTrains geo infra dt rate [(id, t)] = [(id, t'')]) := by
  refine ⟨?_, ?_, ?_, ?_, ?_⟩
  · intro geo infra t
    unfold Train.hasReachedEnd
    cases hw : Infra.getWay infra t.waySection.wayId with
    | none => simp [hw]
    | some w =>
      simp only
      by_cases hlen : w.nodes.length < 2
      · rw [if_pos hlen]
        constructor
        · intro _ way hway hlen2
          rw [Option.some_inj] at hway
          subst hway
          omega
        · intro _; rfl
      · rw [if_neg hlen]
        by_cases hwd : Infra.getWayDistance geo infra t.waySection.wayId = 0
        · rw [if_pos hwd]
          constructor
          · intro _ way _ _
            exact Or.inl hwd
          · intro _; rfl
        · rw [if_neg hwd]
          constructor
          · intro hd way hway _
            exact Or.inr (of_decide_eq_true hd)
          · intro h
            rcases h w rfl (by omega) with h0 | h1
            · exact absurd h0 hwd
            · exact decide_eq_true h1
  · intro infra t i next way hidx hnext hlt hway hlen
    unfold Train.moveToNextWay
    rw [hidx]
    simp only [ge_iff_le, hnext, hway]
    rw [if_neg (by omega : ¬ t.route.waySections.length ≤ i + 1)]
    rw [if_neg (by omega : ¬ way.nodes.length < 2)]
  · intro infra t i hidx hge
    unfold Train.moveToNextWay
    rw [hidx]
    simp only [ge_iff_le]
    rw [if_pos hge]
  · intro geo infra dt rate id t t' hupd hmove
    unfold TrainManager.updateTrains TrainManager.tickFold TrainManager.tickStep
    simp only [List.map_cons, List.map_nil, List.foldl_cons, List.foldl_nil,
      alookup, if_pos rfl, hupd, if_true]
    rcases hmv : Train.moveToNextWay infra t' with ⟨t'', flag⟩
    rw [hmv] at hmove
    simp only at hmove
    subst hmove
    simp [aset, List.filter]
  · intro geo infra dt rate id t t' t'' hupd hmove
    unfold TrainManager.updateTrains TrainManager.tickFold TrainManager.tickStep
    simp only [List.map_cons, List.map_nil, List.foldl_cons, List.foldl_nil,
      alookup, if_pos rfl, hupd, if_true]
    rw [hmove]
    simp [aset, List.filter]

/-! Witness scenario for the amended C2: trains that do reach the full
way's length, advance, and get removed at the route's end. -/

/-- `tP` pushed to the full 2 km way length: now reached. -/
def tP2 : Train := { tP with distanceAlongKm := 2, routePosition := 2 }

/-- A train on the last section `v`, past its end. -/
def tQ : Train :=
  { tP with waySection := vSec, distanceAlongKm := 7, routePosition := 8 }

theorem gapQ : Train.getDistanceToTrainAhead cGeo dInfra tQ [tQ] = maxSafe := by
  norm_num +decide [Train.getDistanceToTrainAhead, Train.distAheadLoop, sectionIndexOf,
    dGetWayU, dGetWayV, dSecDistU, dSecDistV, List.filterMap_cons,
    tP, tQ, dRoute, uSlice, vSec, maxSafe, jsMin]

/-- `tQ` after a 1 s tick: past the way's 6 km length, so reached. -/
def tQ1 : Train :=
  { tQ with
      acceleration := 1, velocity := 1,
      distanceAlongKm := 7.001, routePosition := 8.001 }

theorem updQ : Train.update cGeo dInfra [tQ] 1 tQ = (tQ1, true) := by
  rw [show Train.update cGeo dInfra [tQ] 1 tQ
      = Train.updateMove cGeo dInfra [tQ] 1 tQ from by simp [Train.update, tP, tQ]]
  rw [Train.updateMove, gapQ, dNoStopAhead tQ rfl]
  norm_num +decide [Train.calculateAcceleration, jsMin, maxSafe, maxSpeed,
    baseAcceleration, baseDeceleration, emergencyDeceleration,
    Train.updateCoordinates, WaySection.getCoordinates, Train.hasReachedEnd,
    dGetWayV, dWayDistV,
    tP, tQ, tQ1, vSec, cGeo_lineLen, cGeo_alongPt, cGeo_bearingOf, eqLen]

theorem moveQ : Train.moveToNextWay dInfra tQ1 = (tQ1, false) := by
  norm_num +decide [Train.moveToNextWay, sectionIndexOf, tQ1, tQ, tP, dRoute,
    uSlice, vSec]

theorem dRPv : TrainRoute.getRoutePosition dRoute "v" 0 = 1 := by
  norm_num +decide [TrainRoute.getRoutePosition, TrainRoute.routePositionLoop,
    dRoute, uSlice, vSec]

/-- C2 (amended) witness: the reached-end test fires at the full way
length (`tP2` at 2 km), `moveToNextWay` advances `tP2` onto section `v`
with distance 0 and route position 1 (the cumulative distance of `v`),
and the Fleet Manager removes a train (`tQ`) that reaches the end of the
last section. -/
theorem claim2_witness :
    Train.hasReachedEnd cGeo dInfra tP2 = true ∧
    Train.moveToNextWay dInfra tP2
      = ({ tP2 with waySection := vSec, distanceAlongKm := 0, routePosition := 1 }, true) ∧
    TrainManager.updateTrains cGeo dInfra 1 1 [("Q", tQ)] = [] := by
  refine ⟨?_, ?_, ?_⟩
  · refine (claim2_theorem.1 cGeo dInfra tP2).mpr ?_
    intro way hway hlen
    right
    rw [show tP2.waySection.wayId = "u" from rfl, dWayDistU]
    show (2 : ℚ) ≤ tP2.distanceAlongKm
    norm_num [tP2, tP]
  · have h := claim2_theorem.2.1 dInfra tP2 0 vSec { nodes := ["b", "d"], bidi := true }
      (by norm_num +decide [sectionIndexOf, tP2, tP, dRoute, uSlice, vSec])
      (by norm_num [tP2, tP, dRoute])
      (by norm_num [tP2, tP, dRoute])
      (by exact dGetWayV)
      (by norm_num)
    rw [h]
    have hrp : tP2.route.getRoutePosition vSec.wayId 0 = 1 := by
      rw [show tP2.route = dRoute from rfl, show vSec.wayId = "v" from rfl, dRPv]
    rw [hrp]
  · refine claim2_theorem.2.2.2.1 cGeo dInfra 1 1 "Q" tQ tQ1 ?_ ?_
    · rw [show (1 : ℚ) * 1 = 1 from by norm_num, updQ]
    · rw [moveQ]

/-- `Train.updateCoordinates` only rewrites the rendering fields
(`coordinates`, `bearing`); every kinematic field is untouched. -/
theorem updateCoordinates_shape (geo : Geo) (t : Train) :
    ∃ c b, Train.updateCoordinates geo t = { t with coordinates := c, bearing := b } := by
  unfold Train.updateCoordinates
  dsimp only
  split
  · exact ⟨t.coordinates, t.bearing, rfl⟩
  · split
    · exact ⟨_, _, rfl⟩
    · exact ⟨_, t.bearing, rfl⟩

/-- The empty route (what `fromService` yields for a service with no
way ids). -/
def eRoute : TrainRoute :=
  { infra := cInfra, waySections := [], stopNodeIds := [],
    sectionDistances := [], totalDistance := 0 }

theorem eRoute_fromService :
    TrainRoute.fromService cGeo cInfra { stop_node_ids := [], route_way_ids := [] }
      = Except.ok eRoute := by
  norm_num [TrainRoute.fromService, TrainRoute.buildRoute, mapExcept, eRoute]

/-- C9.  The claim is false on the code: `addTrain` on a route with no
`TrackSections` (an empty route, as produced by `fromService` for an
empty way list) does not return `none` — the `Train` constructor
dereferences `route.waySections[0].wayId` and throws a `TypeError`. -/
theorem claim9_counterexample :
    TrainRoute.fromService cGeo cInfra { stop_node_ids := [], route_way_ids := [] }
      = Except.ok eRoute ∧
    TrainManager.addTrain cGeo cInfra eRoute 10 0 { trains := [], nextTrainId := 1 }
      = Except.error "TypeError: cannot read wayId of undefined" := by
  refine ⟨eRoute_fromService, ?_⟩
  norm_num +decide [TrainManager.addTrain, Infra.getAllWayIds, cInfra, mkTrain,
    Infra.getWay, alookup, eRoute]

/-- C9 (amended).  `spawn` returns `none` when the network has no ways at
all, and also (regardless of the route) when the randomly picked way is
missing or degenerate; but it is not error-free: when the given route has
no `TrackSections` it throws a `TypeError` instead of returning `none`.
On success it returns the id `train-<counter>` (with the monotone counter
incremented), registering a vehicle placed at the start of the given
route (first section, distance 0, velocity 0, acceleration 1 m/s²). -/
theorem claim9_theorem :
    (∀ (geo : Geo) (infra : Infra) (route : TrainRoute) (dwell : ℚ) (r : Nat)
        (m : TrainManager), infra.ways = [] →
      TrainManager.addTrain geo infra route dwell r m = Except.ok (none, m)) ∧
    (∀ (geo : Geo) (infra : Infra) (route : TrainRoute) (dwell : ℚ) (r : Nat)
        (m : TrainManager),
      infra.ways ≠ [] →
      Infra.getWay infra ((Infra.getAllWayIds infra).getD r "") = none →
      TrainManager.addTrain geo infra route dwell r m = Except.ok (none, m)) ∧
    (∀ (geo : Geo) (infra : Infra) (route : TrainRoute) (dwell : ℚ) (r : Nat)
        (m : TrainManager) (way : Way),
      infra.ways ≠ [] →
      Infra.getWay infra ((Infra.getAllWayIds infra).getD r "") = some way →
      way.nodes.length < 2 →
      TrainManager.addTrain geo infra route dwell r m = Except.ok (none, m)) ∧
    (∀ (geo : Geo) (infra : Infra) (route : TrainRoute) (dwell : ℚ) (r : Nat)
        (m : TrainManager) (way : Way),
      route.waySections = [] →
      infra.ways ≠ [] →
      Infra.getWay infra ((Infra.getAllWayIds infra).getD r "") = some way →
      2 ≤ way.nodes.length →
      ∃ e, TrainManager.addTrain geo infra route dwell r m = Except.error e) ∧
    (∀ (geo : Geo) (infra : Infra) (route : TrainRoute) (dwell : ℚ) (r : Nat)
        (m : TrainManager) (way : Way) (ws : WaySection) (rest : List WaySection),
      route.waySections = ws :: rest →
      infra.ways ≠ [] →
      Infra.getWay infra ((Infra.getAllWayIds infra).getD r "") = some way →
      2 ≤ way.nodes.length →
      ∃ t, TrainManager.addTrain geo infra route dwell r m
          = Except.ok (some ("train-" ++ toString m.nextTrainId),
              { trains := m.trains ++ [("train-" ++ toString m.nextTrainId, t)],
                nextTrainId := m.nextTrainId + 1 }) ∧
        t.waySection = ws ∧ t.distanceAlongKm = 0 ∧ t.velocity = 0 ∧
        t.acceleration = 1 ∧ t.route = route ∧ t.isAtStop = false ∧
        t.routePosition = TrainRoute.getRoutePosition route ws.wayId 0) := by
  refine ⟨?_, ?_, ?_, ?_, ?_⟩
  · intro geo infra route dwell r m hways
    unfold TrainManager.addTrain
    rw [if_pos (by simp [Infra.getAllWayIds, hways])]
  · intro geo infra route dwell r m hways hget
    unfold TrainManager.addTrain
    rw [if_neg (by simp [Infra.getAllWayIds, hways])]
    simp only [hget]
  · intro geo infra route dwell r m way hways hget hlen
    unfold TrainManager.addTrain
    rw [if_neg (by simp [Infra.getAllWayIds, hways])]
    simp only [hget]
    rw [if_pos hlen]
  · intro geo infra route dwell r m way hroute hways hget hlen
    unfold TrainManager.addTrain
    rw [if_neg (by simp [Infra.getAllWayIds, hways])]
    simp only [hget]
    rw [if_neg (by omega)]
    unfold mkTrain
    rw [hroute]
    exact ⟨_, rfl⟩
  · intro geo infra route dwell r m way ws rest hroute hways hget hlen
    unfold TrainManager.addTrain
    rw [if_neg (by simp [Infra.getAllWayIds, hways])]
    simp only [hget]
    rw [if_neg (by omega)]
    unfold mkTrain
    rw [hroute]
    simp only
    obtain ⟨c, b, hshape⟩ := updateCoordinates_shape geo
      { id := "train-" ++ toString m.nextTrainId, waySection := ws, distanceAlongKm := 0,
        velocity := 0, acceleration := 0, coordinates := (0, 0), bearing := 0,
        route := route, routePosition := TrainRoute.getRoutePosition route ws.wayId 0,
        isAtStop := false, stopDwellTime := dwell, remainingDwellTime := 0,
        lastStopNodeId := none }
    rw [hshape]
    exact ⟨_, rfl, rfl, rfl, rfl, rfl, rfl, rfl, rfl⟩

/-- A network whose only way is degenerate (a single node), for the C9
witness's degenerate-pick case. -/
def gInfra : Infra :=
  { ways := [("g", { nodes := ["x"], bidi := true })], node_coords := [] }

/-- C9 (amended) witness: spawning on the empty network record returns
`none`; on the one-way network an out-of-range pick (index 5 resolves no
way) returns `none`, and a pick resolving a degenerate single-node way
returns `none`; spawning the empty route throws; spawning the one-section
route returns the fresh id `train-5` with the vehicle at the start of the
route. -/
theorem claim9_witness :
    TrainManager.addTrain cGeo { ways := [], node_coords := [] } cRoute 10 0
      { trains := [], nextTrainId := 1 } = Except.ok (none, { trains := [], nextTrainId := 1 }) ∧
    TrainManager.addTrain cGeo cInfra cRoute 10 5 { trains := [], nextTrainId := 1 }
      = Except.ok (none, { trains := [], nextTrainId := 1 }) ∧
    TrainManager.addTrain cGeo gInfra cRoute 10 0 { trains := [], nextTrainId := 1 }
      = Except.ok (none, { trains := [], nextTrainId := 1 }) ∧
    (∃ e, TrainManager.addTrain cGeo cInfra eRoute 10 0 { trains := [], nextTrainId := 1 }
      = Except.error e) ∧
    (∃ t, TrainManager.addTrain cGeo cInfra cRoute 10 0 { trains := [], nextTrainId := 5 }
        = Except.ok (some "train-5", { trains := [("train-5", t)], nextTrainId := 6 }) ∧
      t.waySection = cWS ∧ t.velocity = 0 ∧ t.acceleration = 1) := by
  refine ⟨?_, ?_, ?_, ?_, ?_⟩
  · exact claim9_theorem.1 cGeo { ways := [], node_coords := [] } cRoute 10 0
      { trains := [], nextTrainId := 1 } rfl
  · exact claim9_theorem.2.1 cGeo cInfra cRoute 10 5 { trains := [], nextTrainId := 1 }
      (by simp [cInfra])
      (by norm_num +decide [cInfra, Infra.getAllWayIds, Infra.getWay, alookup])
  · exact claim9_theorem.2.2.1 cGeo gInfra
      cRoute 10 0 { trains := [], nextTrainId := 1 } { nodes := ["x"], bidi := true }
      (by simp [gInfra])
      (by norm_num +decide [gInfra, Infra.getAllWayIds, Infra.getWay, alookup])
      (by norm_num)
  · exact claim9_theorem.2.2.2.1 cGeo cInfra eRoute 10 0 { trains := [], nextTrainId := 1 }
      cWay rfl (by simp [cInfra]) (by exact cGetWay) (by norm_num [cWay])
  · obtain ⟨t, heq, hws, _, hv, ha, _, _, _⟩ := claim9_theorem.2.2.2.2 cGeo cInfra cRoute 10 0
      { trains := [], nextTrainId := 5 } cWay cWS [] rfl (by simp [cInfra])
      (by exact cGetWay) (by norm_num [cWay])
    exact ⟨t, by simpa using heq, hws, hv, ha⟩

/-! ### The acceleration control law (C3, C4) -/

theorem foldl_min_mem (l : List ℚ) (a : ℚ) : l.foldl min a = a ∨ l.foldl min a ∈ l := by
  induction l generalizing a with
  | nil => exact Or.inl rfl
  | cons y ys ih =>
    rcases ih (min a y) with h | h
    · rcases min_choice a y with hc | hc
      · exact Or.inl (by rw [List.foldl_cons, h, hc])
      · exact Or.inr (by rw [List.foldl_cons, h, hc]; exact List.mem_cons_self _ _)
    · exact Or.inr (List.mem_cons_of_mem _ h)

theorem foldl_min_le_init (l : List ℚ) (a : ℚ) : l.foldl min a ≤ a := by
  induction l generalizing a with
  | nil => simp
  | cons y ys ih =>
    calc List.foldl min (min a y) ys ≤ min a y := ih (min a y)
    _ ≤ a := min_le_left _ _

theorem foldl_min_le_mem (l : List ℚ) (y : ℚ) (h : y ∈ l) :
    ∀ a, l.foldl min a ≤ y := by
  induction l with
  | nil => simp at h
  | cons z zs ih =>
    intro a
    rcases List.mem_cons.mp h with h' | h'
    · subst h'
      calc List.foldl min (min a y) zs ≤ min a y := foldl_min_le_init zs (min a y)
      _ ≤ y := min_le_right _ _
    · exact ih h' (min a z)

theorem jsMin_mem (x : ℚ) (xs : List ℚ) : jsMin (x :: xs) ∈ x :: xs := by
  rcases foldl_min_mem xs x with h | h
  · rw [jsMin, h]; exact List.mem_cons_self _ _
  · exact List.mem_cons_of_mem _ h

theorem jsMin_le (x : ℚ) (xs : List ℚ) (y : ℚ) (hy : y ∈ x :: xs) : jsMin (x :: xs) ≤ y := by
  rcases List.mem_cons.mp hy with h | h
  · subst h; exact jsMin_le_head _ _
  · exact foldl_min_le_mem xs y h x

theorem mem_ite_singleton {c : Prop} [Decidable c] {x y : ℚ}
    (h : y ∈ (if c then [x] else [])) : y = x ∧ c := by
  split at h
  · simp at h
    exact ⟨h, by assumption⟩
  · simp at h

/-- The acceleration candidates as the spec lists them (§4.4): base
acceleration always; zero once the velocity is at or above the configured
maximum; service braking when the gap to the train ahead is within the
braking distance v²∕(2·baseDeceleration); emergency braking when it is
within v²∕(2·emergencyDeceleration) (distances converted to the route's
km unit); and, only when a next stop exists (a finite gap, i.e. below the
"infinite" sentinel) and the velocity is positive, the stop-approach term
−u²∕(2s), replaced by the mild no-brake candidate
min(baseAcceleration, acceleration + 0.5) when the required deceleration
is gentler than base deceleration and clamped to −emergencyDeceleration
when it exceeds emergency deceleration. -/
def specCandidates (velocity acceleration distanceToTrainAhead : ℚ)
    (distanceToNextStop? : Option ℚ) : List ℚ :=
  [baseAcceleration]
  ++ (if velocity ≥ maxSpeed then [0] else [])
  ++ (if distanceToTrainAhead ≤ velocity * velocity / (2 * baseDeceleration * 1000) then
        [-baseDeceleration] else [])
  ++ (if distanceToTrainAhead ≤ velocity * velocity / (2 * emergencyDeceleration * 1000) then
        [-emergencyDeceleration] else [])
  ++ (match distanceToNextStop? with
      | none => []
      | some s =>
        if s < maxSafe ∧ velocity > 0 then
          let required := -(velocity * velocity) / (2 * (s * 1000))
          if required > -baseDeceleration then
            [min baseAcceleration (acceleration + 0.5)]
          else if required ≤ -emergencyDeceleration then [-emergencyDeceleration]
          else [required]
        else [])

theorem calculateAcceleration_eq_jsMin (v a gap : ℚ) (s? : Option ℚ) :
    Train.calculateAcceleration v a gap s? = jsMin (specCandidates v a gap s?) := rfl

/-- C3.  On every Moving tick the applied acceleration is exactly the
minimum of the applicable candidate set described by the spec: it is one
of the candidates, and it is a lower bound of all of them.  (In
`Train.update` the stop argument is always passed; "a next stop exists"
is a finite gap, i.e. one below the `MAX_SAFE_INTEGER` sentinel that
`getDistanceToNextStop` returns when no stop is ahead.) -/
theorem claim3_theorem (v a gap : ℚ) (s? : Option ℚ) :
    Train.calculateAcceleration v a gap s? ∈ specCandidates v a gap s? ∧
    ∀ c ∈ specCandidates v a gap s?, Train.calculateAcceleration v a gap s? ≤ c := by
  rw [calculateAcceleration_eq_jsMin]
  have hshape : specCandidates v a gap s?
      = baseAcceleration :: (specCandidates v a gap s?).tail := rfl
  constructor
  · rw [hshape]
    exact jsMin_mem _ _
  · intro c hc
    rw [hshape]
    exact jsMin_le _ _ c (hshape ▸ hc)

/-- C3 witness: a concrete Moving configuration in which base
acceleration, service braking and a −4 m/s² stop-approach term compete;
the applied acceleration is the stop-approach term −4, it is a candidate,
and it bounds the explicitly-evaluated candidate set from below. -/
theorem claim3_witness :
    Train.calculateAcceleration 20 0 0.1 (some 0.05) = -4 ∧
    specCandidates 20 0 0.1 (some 0.05) = [1, -2, -4] ∧
    Train.calculateAcceleration 20 0 0.1 (some 0.05) ∈ specCandidates 20 0 0.1 (some 0.05) ∧
    Train.calculateAcceleration 20 0 0.1 (some 0.05) ≤ -2 := by
  have hspec : specCandidates 20 0 0.1 (some 0.05) = [1, -2, -4] := by
    norm_num [specCandidates, baseAcceleration, baseDeceleration, emergencyDeceleration,
      maxSpeed, maxSafe]
  have hval : Train.calculateAcceleration 20 0 0.1 (some 0.05) = -4 := by
    rw [calculateAcceleration_eq_jsMin, hspec]
    norm_num [jsMin]
  refine ⟨hval, hspec, (claim3_theorem 20 0 0.1 (some 0.05)).1, ?_⟩
  exact (claim3_theorem 20 0 0.1 (some 0.05)).2 (-2) (by rw [hspec]; norm_num)

/-- Every spec candidate is at least −emergencyDeceleration, provided the
previous acceleration is (the mild no-brake candidate references it). -/
theorem specCandidates_lower (v a gap : ℚ) (s? : Option ℚ)
    (ha : -emergencyDeceleration ≤ a) :
    ∀ y ∈ specCandidates v a gap s?, -emergencyDeceleration ≤ y := by
  intro y hy
  unfold specCandidates at hy
  rcases List.mem_append.mp hy with hy | hstop
  · rcases List.mem_append.mp hy with hy | h3
    · rcases List.mem_append.mp hy with hy | h2
      · rcases List.mem_append.mp hy with h0 | h1
        · simp at h0
          subst h0
          norm_num [baseAcceleration, emergencyDeceleration]
        · obtain ⟨rfl, -⟩ := mem_ite_singleton h1
          norm_num [emergencyDeceleration]
      · obtain ⟨rfl, -⟩ := mem_ite_singleton h2
        norm_num [baseDeceleration, emergencyDeceleration]
    · obtain ⟨rfl, -⟩ := mem_ite_singleton h3
      exact le_rfl
  · rcases s? with _ | s
    · simp at hstop
    · dsimp only at hstop
      by_cases hc : s < maxSafe ∧ v > 0
      · rw [if_pos hc] at hstop
        by_cases hr1 : -(v * v) / (2 * (s * 1000)) > -baseDeceleration
        · rw [if_pos hr1] at hstop
          simp at hstop
          subst hstop
          refine le_min ?_ ?_
          · norm_num [baseAcceleration, emergencyDeceleration]
          · norm_num [emergencyDeceleration] at ha ⊢
            linarith
        · rw [if_neg hr1] at hstop
          by_cases hr2 : -(v * v) / (2 * (s * 1000)) ≤ -emergencyDeceleration
          · rw [if_pos hr2] at hstop
            simp at hstop
            subst hstop
            exact le_rfl
          · rw [if_neg hr2] at hstop
            simp at hstop
            subst hstop
            push_neg at hr2
            linarith
      · rw [if_neg hc] at hstop
        simp at hstop

/-- Bounds on the control law: with the previous acceleration at least
−emergencyDeceleration, the applied acceleration lies in
[−emergencyDeceleration, baseAcceleration]. -/
theorem calculateAcceleration_bounds (v a gap : ℚ) (s? : Option ℚ)
    (ha : -emergencyDeceleration ≤ a) :
    -emergencyDeceleration ≤ Train.calculateAcceleration v a gap s? ∧
    Train.calculateAcceleration v a gap s? ≤ baseAcceleration := by
  rw [calculateAcceleration_eq_jsMin]
  have hshape : specCandidates v a gap s?
      = baseAcceleration :: (specCandidates v a gap s?).tail := rfl
  constructor
  · rw [hshape]
    refine jsMin_ge _ _ _ ?_ ?_
    · exact specCandidates_lower v a gap s? ha _ (by rw [hshape]; exact List.mem_cons_self _ _)
    · intro y hy
      exact specCandidates_lower v a gap s? ha y (by rw [hshape]; exact List.mem_cons_of_mem _ hy)
  · rw [hshape]
    exact jsMin_le_head _ _

/-- The fleet-wide acceleration invariant. -/
def AccelInv (fleet : Fleet) : Prop :=
  ∀ p ∈ fleet, -emergencyDeceleration ≤ (p : String × Train).2.acceleration ∧
    p.2.acceleration ≤ baseAcceleration

/-- `moveToNextWay` either leaves the train unchanged or only rebases its
section and position; accelerations and velocities are untouched. -/
theorem moveToNextWay_shape (infra : Infra) (t : Train) :
    Train.moveToNextWay infra t = (t, false) ∨
    ∃ ws rp, Train.moveToNextWay infra t
      = ({ t with waySection := ws, distanceAlongKm := 0, routePosition := rp }, true) := by
  unfold Train.moveToNextWay
  cases sectionIndexOf t.waySection.wayId t.route.waySections with
  | none => exact Or.inl rfl
  | some i =>
    dsimp only
    split
    · exact Or.inl rfl
    · split
      · exact Or.inl rfl
      · split
        · exact Or.inl rfl
        · exact Or.inr ⟨_, _, rfl⟩

/-- `moveToNextWay` never changes the acceleration. -/
theorem moveToNextWay_accel (infra : Infra) (t : Train) :
    (Train.moveToNextWay infra t).1.acceleration = t.acceleration := by
  rcases moveToNextWay_shape infra t with hm | ⟨ws, rp, hm⟩ <;> rw [hm]

/-- One vehicle update keeps the acceleration in
[−emergencyDeceleration, baseAcceleration] (dwelling leaves it unchanged;
moving recomputes it through the bounded control law). -/
theorem update_accel_inv (geo : Geo) (infra : Infra) (others : List Train) (dt : ℚ)
    (t : Train)
    (h : -emergencyDeceleration ≤ t.acceleration ∧ t.acceleration ≤ baseAcceleration) :
    -emergencyDeceleration ≤ (Train.update geo infra others dt t).1.acceleration ∧
    (Train.update geo infra others dt t).1.acceleration ≤ baseAcceleration := by
  have hmove : ∀ (t' : Train),
      -emergencyDeceleration ≤ t'.acceleration ∧ t'.acceleration ≤ baseAcceleration →
      -emergencyDeceleration ≤ (Train.updateMove geo infra others dt t').1.acceleration ∧
      (Train.updateMove geo infra others dt t').1.acceleration ≤ baseAcceleration := by
    intro t' ht'
    unfold Train.updateMove
    dsimp only
    obtain ⟨hb1, hb2⟩ := calculateAcceleration_bounds t'.velocity t'.acceleration
      (Train.getDistanceToTrainAhead geo infra t' others)
      (some (Train.getDistanceToNextStop geo t').1) ht'.1
    split
    · obtain ⟨c, b, hshape⟩ := updateCoordinates_shape geo _
      rw [hshape]
      exact ⟨hb1, hb2⟩
    · obtain ⟨c, b, hshape⟩ := updateCoordinates_shape geo _
      rw [hshape]
      exact ⟨hb1, hb2⟩
  unfold Train.update
  split
  · split
    · exact h
    · exact hmove _ h
  · exact hmove _ h

/-- One `tickStep` keeps the fleet-wide acceleration invariant. -/
theorem tickStep_accel_inv (geo : Geo) (infra : Infra) (dt : ℚ)
    (st : Fleet × List String × List String) (id : String)
    (h : AccelInv st.1) :
    AccelInv (TrainManager.tickStep geo infra dt st id).1 := by
  unfold TrainManager.tickStep
  dsimp only
  cases hl : alookup st.1 id with
  | none => exact h
  | some t =>
    dsimp only
    have ht : -emergencyDeceleration ≤ t.acceleration ∧ t.acceleration ≤ baseAcceleration :=
      h (id, t) (alookup_mem _ _ _ hl)
    have hupd := update_accel_inv geo infra (st.1.map Prod.snd) dt t ht
    have haset : ∀ v : Train,
        -emergencyDeceleration ≤ v.acceleration ∧ v.acceleration ≤ baseAcceleration →
        AccelInv (aset st.1 id v) := by
      intro v hv p hp
      rcases mem_aset _ _ _ _ hp with hpv | hpm
      · rw [hpv]; exact hv
      · exact h p hpm
    split
    · split
      · refine haset _ ?_
        rw [moveToNextWay_accel]
        exact hupd
      · refine haset _ ?_
        rw [moveToNextWay_accel]
        exact hupd
    · exact haset _ hupd

/-- The per-tick fold keeps the fleet-wide acceleration invariant. -/
theorem tickFold_accel_inv (geo : Geo) (infra : Infra) (dt : ℚ) (ids : List String)
    (st : Fleet × List String × List String)
    (h : AccelInv st.1) :
    AccelInv (ids.foldl (TrainManager.tickStep geo infra dt) st).1 := by
  induction ids generalizing st with
  | nil => exact h
  | cons id rest ih =>
    exact ih _ (tickStep_accel_inv geo infra dt st id h)

/-- C4.  Accelerations stay in [−emergencyDeceleration, baseAcceleration]
along every run from spawn: the constructor starts at 0 and the manager's
initial value is 1 (both inside the interval), each update's recomputed
acceleration stays inside the interval whenever the previous one was
(in particular the stop-approach deceleration is clamped and never
exceeds emergencyDeceleration in magnitude, for every gap and velocity),
and a whole manager tick preserves the fleet-wide invariant. -/
theorem claim4_theorem :
    (∀ (v a gap : ℚ) (s? : Option ℚ), -emergencyDeceleration ≤ a →
      -emergencyDeceleration ≤ Train.calculateAcceleration v a gap s? ∧
      Train.calculateAcceleration v a gap s? ≤ baseAcceleration) ∧
    (∀ (geo : Geo) (route : TrainRoute) (id : String) (dwell : ℚ) (t : Train),
      mkTrain geo route id dwell = Except.ok t →
      t.acceleration = 0 ∧
      -emergencyDeceleration ≤ t.acceleration ∧ t.acceleration ≤ baseAcceleration) ∧
    (∀ (geo : Geo) (infra : Infra) (route : TrainRoute) (dwell : ℚ) (r : Nat)
        (m : TrainManager) (id : Option String) (m' : TrainManager),
      TrainManager.addTrain geo infra route dwell r m = Except.ok (id, m') →
      ∀ p ∈ m'.trains, p ∈ m.trains ∨ p.2.acceleration = 1) ∧
    (∀ (geo : Geo) (infra : Infra) (dt rate : ℚ) (fleet : Fleet),
      AccelInv fleet → AccelInv (TrainManager.updateTrains geo infra dt rate fleet)) := by
  refine ⟨?_, ?_, ?_, ?_⟩
  · intro v a gap s? ha
    exact calculateAcceleration_bounds v a gap s? ha
  · intro geo route id dwell t hmk
    unfold mkTrain at hmk
    rcases hr : route.waySections with _ | ⟨ws, rest⟩
    · rw [hr] at hmk; exact absurd hmk (by simp)
    · rw [hr] at hmk
      simp only [Except.ok.injEq] at hmk
      obtain ⟨c, b, hshape⟩ := updateCoordinates_shape geo
        { id := id, waySection := ws, distanceAlongKm := 0, velocity := 0,
          acceleration := 0, coordinates := (0, 0), bearing := 0, route := route,
          routePosition := TrainRoute.getRoutePosition route ws.wayId 0,
          isAtStop := false, stopDwellTime := dwell, remainingDwellTime := 0,
          lastStopNodeId := none }
      rw [hshape] at hmk
      subst hmk
      norm_num [emergencyDeceleration, baseAcceleration]
  · intro geo infra route dwell r m id m' hadd
    unfold TrainManager.addTrain at hadd
    by_cases h0 : (Infra.getAllWayIds infra).length = 0
    · rw [if_pos h0] at hadd
      simp only [Except.ok.injEq, Prod.mk.injEq] at hadd
      obtain ⟨-, h2⟩ := hadd
      subst h2
      intro p hp
      exact Or.inl hp
    · rw [if_neg h0] at hadd
      rcases hw : Infra.getWay infra ((Infra.getAllWayIds infra).getD r "") with _ | way
      · simp only [hw, Except.ok.injEq, Prod.mk.injEq] at hadd
        obtain ⟨-, h2⟩ := hadd
        subst h2
        intro p hp
        exact Or.inl hp
      · simp only [hw] at hadd
        by_cases hlen : way.nodes.length < 2
        · rw [if_pos hlen] at hadd
          simp only [Except.ok.injEq, Prod.mk.injEq] at hadd
          obtain ⟨-, h2⟩ := hadd
          subst h2
          intro p hp
          exact Or.inl hp
        · rw [if_neg hlen] at hadd
          rcases hmk : mkTrain geo route ("train-" ++ toString m.nextTrainId) dwell
            with e | train
          · simp [hmk] at hadd
          · simp only [hmk, Except.ok.injEq, Prod.mk.injEq] at hadd
            obtain ⟨-, h2⟩ := hadd
            subst h2
            intro p hp
            dsimp only at hp
            rcases List.mem_append.mp hp with hp' | hp'
            · exact Or.inl hp'
            · simp only [List.mem_singleton] at hp'
              subst hp'
              exact Or.inr rfl
  · intro geo infra dt rate fleet hinv
    unfold TrainManager.updateTrains TrainManager.tickFold
    intro p hp
    have hp' := List.mem_of_mem_filter hp
    exact tickFold_accel_inv geo infra (dt * rate) (fleet.map Prod.fst)
      (fleet, [], []) hinv p hp'

/-- C4 witness: the two-train fleet satisfies the invariant before and
after a concrete manager tick, the constructor's train starts at
acceleration 0, and the clamped stop-approach bound holds at gap 0.001 km
with velocity 20 m/s (required deceleration 200 m/s², applied −5). -/
theorem claim4_witness :
    (-emergencyDeceleration ≤ Train.calculateAcceleration 20 0 maxSafe (some 0.001) ∧
      Train.calculateAcceleration 20 0 maxSafe (some 0.001) ≤ baseAcceleration) ∧
    AccelInv (TrainManager.updateTrains cGeo cInfra 1 1 [("t1", tA), ("t2", tB)]) := by
  constructor
  · exact claim4_theorem.1 20 0 maxSafe (some 0.001)
      (by norm_num [emergencyDeceleration])
  · refine claim4_theorem.2.2.2 cGeo cInfra 1 1 [("t1", tA), ("t2", tB)] ?_
    intro p hp
    rcases List.mem_cons.mp hp with h | h
    · rw [h]
      norm_num [tA, emergencyDeceleration, baseAcceleration]
    · rcases List.mem_cons.mp h with h' | h'
      · rw [h']
        norm_num [tB, tA, emergencyDeceleration, baseAcceleration]
      · simp at h'

/-! ### Route assembly (C6, C7) -/

/-- Network for the C6 configuration: segment `A` with nodes
`n1,n2,n3` and segment `B` with nodes `n3,n4,n5`, with arbitrary
coordinates. -/
def infra6 (c1 c2 c3 c4 c5 : ℚ × ℚ) : Infra :=
  { ways := [("A", { nodes := ["n1", "n2", "n3"], bidi := true }),
             ("B", { nodes := ["n3", "n4", "n5"], bidi := true })],
    node_coords := [("n1", c1), ("n2", c2), ("n3", c3), ("n4", c4), ("n5", c5)] }

/-- The C6 service: route `A` then `B`, no stops. -/
def svc6 : Service := { stop_node_ids := [], route_way_ids := ["A", "B"] }

/-- The route that assembling `[A, B]` must produce. -/
def route6 (geo : Geo) (c1 c2 c3 c4 c5 : ℚ × ℚ) : TrainRoute :=
  { infra := infra6 c1 c2 c3 c4 c5,
    waySections :=
      [{ wayId := "A", startNodeId := "n1", endNodeId := "n3",
         nodeIds := ["n1", "n2", "n3"], points := [c1, c2, c3] },
       { wayId := "B", startNodeId := "n3", endNodeId := "n5",
         nodeIds := ["n3", "n4", "n5"], points := [c3, c4, c5] }],
    stopNodeIds := [],
    sectionDistances := [0, geo.lineLen [c1, c2, c3]],
    totalDistance := geo.lineLen [c1, c2, c3] + geo.lineLen [c3, c4, c5] }

set_option maxHeartbeats 1000000 in
theorem route6_fromService (geo : Geo) (c1 c2 c3 c4 c5 : ℚ × ℚ) :
    TrainRoute.fromService geo (infra6 c1 c2 c3 c4 c5) svc6
      = Except.ok (route6 geo c1 c2 c3 c4 c5) := by
  norm_num +decide [TrainRoute.fromService, TrainRoute.buildRoute, mkWaySection,
    Infra.getWay, alookup, jsIndexOf, Infra.getNodeCoords, WaySection.getDistance,
    TrainRoute.connectStep, TrainRoute.fixupEnds, findCommonElement, jsIncludes,
    List.range_succ, List.filterMap_cons, infra6, svc6, route6, mapExcept, mapOption]

theorem route6_line (geo : Geo) (c1 c2 c3 c4 c5 : ℚ × ℚ) :
    TrainRoute.getRouteLine (route6 geo c1 c2 c3 c4 c5) = some [c1, c2, c3, c4, c5] := by
  simp [TrainRoute.getRouteLine, route6, WaySection.getCoordinates]

/-- C6.  Assembling `[A, B]` with `A = [N1,N2,N3]` and `B = [N3,N4,N5]`
yields exactly two `TrackSections` — `A` sliced from `N1` to `N3` and `B`
sliced from `N3` to `N5` — whose merged polyline is the coordinate
sequence of `N1..N5` with the shared point at `N3` appearing exactly
once, and whose `totalDistance` is the geodesic length of `N1..N3` plus
the geodesic length of `N3..N5`, for every geometry and every choice of
coordinates. -/
theorem claim6_theorem (geo : Geo) (c1 c2 c3 c4 c5 : ℚ × ℚ) :
    (TrainRoute.fromService geo (infra6 c1 c2 c3 c4 c5) svc6).toOption.map
        (fun r => (r.waySections.map
            (fun w => (w.wayId, w.startNodeId, w.endNodeId, WaySection.getNodes w)),
          TrainRoute.getRouteLine r, r.totalDistance))
      = some ([("A", "n1", "n3", ["n1", "n2", "n3"]),
               ("B", "n3", "n5", ["n3", "n4", "n5"])],
              some [c1, c2, c3, c4, c5],
              geo.lineLen [c1, c2, c3] + geo.lineLen [c3, c4, c5]) := by
  simp only [route6_fromService, Except.toOption, Option.map]
  rw [route6_line]
  simp [route6, WaySection.getNodes]

/-- Network for the C7 middle-degenerate configuration: a middle segment
`wb` sharing the single node `m2` with both of its neighbours. -/
def infra7mid (q1 q2 q3 q4 : ℚ × ℚ) : Infra :=
  { ways := [("wa", { nodes := ["m1", "m2"], bidi := true }),
             ("wb", { nodes := ["m2", "m3"], bidi := true }),
             ("wc", { nodes := ["m2", "m4"], bidi := true })],
    node_coords := [("m1", q1), ("m2", q2), ("m3", q3), ("m4", q4)] }

/-- The C7 middle-degenerate service. -/
def svc7 : Service := { stop_node_ids := [], route_way_ids := ["wa", "wb", "wc"] }

/-- Network for the C7 first-segment substitution configuration: the first
segment `fa` touches its neighbour `fb` only at its own first node. -/
def infra7first (q1 q2 q3 : ℚ × ℚ) : Infra :=
  { ways := [("fa", { nodes := ["m1", "m2"], bidi := true }),
             ("fb", { nodes := ["m1", "m3"], bidi := true })],
    node_coords := [("m1", q1), ("m2", q2), ("m3", q3)] }

/-- The corresponding service. -/
def svc7first : Service := { stop_node_ids := [], route_way_ids := ["fa", "fb"] }

/-- Network for the C7 last-segment substitution configuration: the last
segment `lb` touches its neighbour `la` only at its own last node. -/
def infra7last (q1 q2 q3 : ℚ × ℚ) : Infra :=
  { ways := [("la", { nodes := ["m1", "m2"], bidi := true }),
             ("lb", { nodes := ["m3", "m2"], bidi := true })],
    node_coords := [("m1", q1), ("m2", q2), ("m3", q3)] }

/-- The corresponding service. -/
def svc7last : Service := { stop_node_ids := [], route_way_ids := ["la", "lb"] }

/-- The route the middle-degenerate chain assembles to. -/
def route7mid (geo : Geo) (q1 q2 q3 q4 : ℚ × ℚ) : TrainRoute :=
  { infra := infra7mid q1 q2 q3 q4,
    waySections :=
      [{ wayId := "wa", startNodeId := "m1", endNodeId := "m2",
         nodeIds := ["m1", "m2"], points := [q1, q2] },
       { wayId := "wb", startNodeId := "m2", endNodeId := "m2",
         nodeIds := ["m2"], points := [q2] },
       { wayId := "wc", startNodeId := "m2", endNodeId := "m4",
         nodeIds := ["m2", "m4"], points := [q2, q4] }],
    stopNodeIds := [],
    sectionDistances := [0, geo.lineLen [q1, q2], geo.lineLen [q1, q2]],
    totalDistance := geo.lineLen [q1, q2] + geo.lineLen [q2, q4] }

set_option maxHeartbeats 1000000 in
theorem route7mid_fromService (geo : Geo) (q1 q2 q3 q4 : ℚ × ℚ) :
    TrainRoute.fromService geo (infra7mid q1 q2 q3 q4) svc7
      = Except.ok (route7mid geo q1 q2 q3 q4) := by
  norm_num +decide [TrainRoute.fromService, TrainRoute.buildRoute, mkWaySection,
    Infra.getWay, alookup, jsIndexOf, Infra.getNodeCoords, WaySection.getDistance,
    TrainRoute.connectStep, TrainRoute.fixupEnds, findCommonElement, jsIncludes,
    List.range_succ, List.filterMap_cons, infra7mid, svc7, route7mid, mapExcept,
    mapOption]

/-- The route the first-substitution chain assembles to. -/
def route7first (geo : Geo) (q1 q2 q3 : ℚ × ℚ) : TrainRoute :=
  { infra := infra7first q1 q2 q3,
    waySections :=
      [{ wayId := "fa", startNodeId := "m2", endNodeId := "m1",
         nodeIds := ["m2", "m1"], points := [q2, q1] },
       { wayId := "fb", startNodeId := "m1", endNodeId := "m3",
         nodeIds := ["m1", "m3"], points := [q1, q3] }],
    stopNodeIds := [],
    sectionDistances := [0, geo.lineLen [q2, q1]],
    totalDistance := geo.lineLen [q2, q1] + geo.lineLen [q1, q3] }

set_option maxHeartbeats 1000000 in
theorem route7first_fromService (geo : Geo) (q1 q2 q3 : ℚ × ℚ) :
    TrainRoute.fromService geo (infra7first q1 q2 q3) svc7first
      = Except.ok (route7first geo q1 q2 q3) := by
  norm_num +decide [TrainRoute.fromService, TrainRoute.buildRoute, mkWaySection,
    Infra.getWay, alookup, jsIndexOf, Infra.getNodeCoords, WaySection.getDistance,
    TrainRoute.connectStep, TrainRoute.fixupEnds, findCommonElement, jsIncludes,
    List.range_succ, List.filterMap_cons, infra7first, svc7first, route7first,
    mapExcept, mapOption]

/-- The route the last-substitution chain assembles to. -/
def route7last (geo : Geo) (q1 q2 q3 : ℚ × ℚ) : TrainRoute :=
  { infra := infra7last q1 q2 q3,
    waySections :=
      [{ wayId := "la", startNodeId := "m1", endNodeId := "m2",
         nodeIds := ["m1", "m2"], points := [q1, q2] },
       { wayId := "lb", startNodeId := "m2", endNodeId := "m3",
         nodeIds := ["m2", "m3"], points := [q2, q3] }],
    stopNodeIds := [],
    sectionDistances := [0, geo.lineLen [q1, q2]],
    totalDistance := geo.lineLen [q1, q2] + geo.lineLen [q2, q3] }

set_option maxHeartbeats 1000000 in
theorem route7last_fromService (geo : Geo) (q1 q2 q3 : ℚ × ℚ) :
    TrainRoute.fromService geo (infra7last q1 q2 q3) svc7last
      = Except.ok (route7last geo q1 q2 q3) := by
  norm_num +decide [TrainRoute.fromService, TrainRoute.buildRoute, mkWaySection,
    Infra.getWay, alookup, jsIndexOf, Infra.getNodeCoords, WaySection.getDistance,
    TrainRoute.connectStep, TrainRoute.fixupEnds, findCommonElement, jsIncludes,
    List.range_succ, List.filterMap_cons, infra7last, svc7last, route7last,
    mapExcept, mapOption]

/-- C7.  The claim is false on the code: the same-endpoint substitution is
applied only to the first and last segment of the chain, so a MIDDLE
segment whose two computed endpoints resolve to the same node yields a
degenerate single-node `TrackSection`.  Witness: in the `wa, wb, wc`
chain the middle section has node subsequence `[m2]` — fewer than 2
points. -/
theorem claim7_counterexample :
    (TrainRoute.fromService cGeo (infra7mid (0, 0) (1, 0) (2, 0) (3, 0)) svc7).toOption.map
        (fun r => r.waySections.map (fun ws => (WaySection.getNodes ws).length))
      = some [2, 1, 2] ∧ (1 : Nat) < 2 := by
  refine ⟨?_, by norm_num⟩
  simp only [route7mid_fromService, Except.toOption, Option.map]
  simp [route7mid, WaySection.getNodes]

/-- C7 (amended).  In route assembly the same-endpoint substitution is
applied only to the FIRST and the LAST segment of the chain (replacing
the repeated endpoint with the opposite endpoint of that segment's
original node list, so those two sections are not degenerate); a middle
segment whose two computed endpoints resolve to the same node receives no
substitution and yields a degenerate single-node section.  Shown on the
three configurations, for every geometry and coordinates: the middle
segment of `wa,wb,wc` degenerates to `[m2]`, the first segment of
`fa,fb` is rebuilt as `[m2,m1]`, and the last segment of `la,lb` is
rebuilt as `[m2,m3]`. -/
theorem claim7_theorem (geo : Geo) (q1 q2 q3 q4 : ℚ × ℚ) :
    (TrainRoute.fromService geo (infra7mid q1 q2 q3 q4) svc7).toOption.map
        (fun r => r.waySections.map WaySection.getNodes)
      = some [["m1", "m2"], ["m2"], ["m2", "m4"]] ∧
    (TrainRoute.fromService geo (infra7first q1 q2 q3) svc7first).toOption.map
        (fun r => r.waySections.map WaySection.getNodes)
      = some [["m2", "m1"], ["m1", "m3"]] ∧
    (TrainRoute.fromService geo (infra7last q1 q2 q3) svc7last).toOption.map
        (fun r => r.waySections.map WaySection.getNodes)
      = some [["m1", "m2"], ["m2", "m3"]] := by
  refine ⟨?_, ?_, ?_⟩
  · simp only [route7mid_fromService, Except.toOption, Option.map]
    simp [route7mid, WaySection.getNodes]
  · simp only [route7first_fromService, Except.toOption, Option.map]
    simp [route7first, WaySection.getNodes]
  · simp only [route7last_fromService, Except.toOption, Option.map]
    simp [route7last, WaySection.getNodes]

/-! ### Stop projection and caching (C8) -/

theorem insertByPos_perm (s : StopPos) (l : List StopPos) :
    (insertByPos s l).Perm (s :: l) := by
  induction l with
  | nil => exact List.Perm.refl _
  | cons t ts ih =>
    unfold insertByPos
    split
    · exact List.Perm.refl _
    · exact List.Perm.trans (List.Perm.cons t ih) (List.Perm.swap s t ts)

theorem sortByPos_perm (l : List StopPos) : (sortByPos l).Perm l := by
  induction l with
  | nil => exact List.Perm.refl _
  | cons s ss ih =>
    exact List.Perm.trans (insertByPos_perm s (sortByPos ss)) (List.Perm.cons s ih)

theorem insertByPos_sorted (s : StopPos) (l : List StopPos)
    (h : List.Pairwise (fun a b => a.routePosition ≤ b.routePosition) l) :
    List.Pairwise (fun a b => a.routePosition ≤ b.routePosition) (insertByPos s l) := by
  induction l with
  | nil => simp [insertByPos]
  | cons t ts ih =>
    unfold insertByPos
    rcases List.pairwise_cons.mp h with ⟨ht, hts⟩
    split
    · rename_i hle
      refine List.pairwise_cons.mpr ⟨?_, h⟩
      intro b hb
      rcases List.mem_cons.mp hb with hb | hb
      · subst hb; exact hle
      · exact le_trans hle (ht b hb)
    · rename_i hgt
      push_neg at hgt
      refine List.pairwise_cons.mpr ⟨?_, ih hts⟩
      intro b hb
      rcases List.mem_cons.mp ((insertByPos_perm s ts).mem_iff.mp hb) with hb | hb
      · rw [hb]
        exact le_of_lt hgt
      · exact ht b hb

theorem sortByPos_sorted (l : List StopPos) :
    List.Pairwise (fun a b => a.routePosition ≤ b.routePosition) (sortByPos l) := by
  induction l with
  | nil => simp [sortByPos]
  | cons s ss ih => exact insertByPos_sorted s _ ih

/-- The projection each resolvable stop node receives in
`cacheStopPositions`. -/
def mkStopEntry (geo : Geo) (r : TrainRoute) (routeLine : List (ℚ × ℚ))
    (stopNodeId : String) : Option StopPos :=
  match Infra.getNodeCoords r.infra stopNodeId with
  | none => none
  | some stopCoords =>
    some { nodeId := stopNodeId,
           routePosition := max 0 (geo.nearestLoc routeLine stopCoords - 0.075),
           coordinates := stopCoords }

theorem getCachedStopPositions_eq (geo : Geo) (r : TrainRoute)
    (line : List (ℚ × ℚ)) (hne : r.stopNodeIds ≠ [])
    (hline : TrainRoute.getRouteLine r = some line) :
    TrainRoute.getCachedStopPositions geo r
      = sortByPos (r.stopNodeIds.filterMap (mkStopEntry geo r line)) := by
  unfold TrainRoute.getCachedStopPositions
  rw [if_neg (by simpa using hne), hline]
  rfl

/-- C8.  The cached stop list: every entry's route-distance is the
projection location of the stop's coordinates on the merged route
polyline minus the 0.075 km half-platform offset, clamped to ≥ 0; stop
nodes without resolvable coordinates are omitted (the cache is exactly a
permutation of the per-stop projections of the resolvable declared
stops); the list is sorted by route-distance ascending; and a stop that
projects to a given location `D` — in particular the cumulative distance
at a `TrackSection` boundary — is cached with route-distance
`max 0 (D − 0.075)`. -/
theorem claim8_theorem :
    (∀ (geo : Geo) (r : TrainRoute),
      List.Pairwise (fun a b => a.routePosition ≤ b.routePosition)
        (TrainRoute.getCachedStopPositions geo r)) ∧
    (∀ (geo : Geo) (r : TrainRoute) (line : List (ℚ × ℚ)),
      r.stopNodeIds ≠ [] → TrainRoute.getRouteLine r = some line →
      (TrainRoute.getCachedStopPositions geo r).Perm
        (r.stopNodeIds.filterMap (mkStopEntry geo r line))) ∧
    (∀ (geo : Geo) (r : TrainRoute) (line : List (ℚ × ℚ)) (e : StopPos),
      TrainRoute.getRouteLine r = some line →
      e ∈ TrainRoute.getCachedStopPositions geo r →
      ∃ c, Infra.getNodeCoords r.infra e.nodeId = some c ∧ e.nodeId ∈ r.stopNodeIds ∧
        e.coordinates = c ∧
        e.routePosition = max 0 (geo.nearestLoc line c - 0.075)) ∧
    (∀ (geo : Geo) (r : TrainRoute) (line : List (ℚ × ℚ)) (nid : String),
      TrainRoute.getRouteLine r = some line →
      nid ∈ r.stopNodeIds → Infra.getNodeCoords r.infra nid = none →
      ∀ e ∈ TrainRoute.getCachedStopPositions geo r, e.nodeId ≠ nid) ∧
    (∀ (geo : Geo) (r : TrainRoute) (line : List (ℚ × ℚ)) (nid : String)
        (c : ℚ × ℚ) (D : ℚ),
      TrainRoute.getRouteLine r = some line →
      nid ∈ r.stopNodeIds → Infra.getNodeCoords r.infra nid = some c →
      geo.nearestLoc line c = D →
      ∃ e ∈ TrainRoute.getCachedStopPositions geo r, e.nodeId = nid ∧
        e.coordinates = c ∧ e.routePosition = max 0 (D - 0.075)) := by
  have hmem : ∀ (geo : Geo) (r : TrainRoute) (line : List (ℚ × ℚ)) (e : StopPos),
      TrainRoute.getRouteLine r = some line →
      e ∈ TrainRoute.getCachedStopPositions geo r →
      ∃ c, Infra.getNodeCoords r.infra e.nodeId = some c ∧ e.nodeId ∈ r.stopNodeIds ∧
        e.coordinates = c ∧
        e.routePosition = max 0 (geo.nearestLoc line c - 0.075) := by
    intro geo r line e hline he
    by_cases hst : r.stopNodeIds = []
    · rw [TrainRoute.getCachedStopPositions, if_pos (by simp [hst])] at he
      simp at he
    · rw [getCachedStopPositions_eq geo r line hst hline] at he
      have he' := (sortByPos_perm _).mem_iff.mp he
      rcases List.mem_filterMap.mp he' with ⟨nid, hnid, hf⟩
      unfold mkStopEntry at hf
      rcases hc : Infra.getNodeCoords r.infra nid with _ | c
      · rw [hc] at hf; simp at hf
      · rw [hc] at hf
        simp only [Option.some_inj] at hf
        subst hf
        exact ⟨c, hc, hnid, rfl, rfl⟩
  refine ⟨?_, ?_, hmem, ?_, ?_⟩
  · intro geo r
    unfold TrainRoute.getCachedStopPositions
    split
    · simp
    · split
      · simp
      · exact sortByPos_sorted _
  · intro geo r line hne hline
    rw [getCachedStopPositions_eq geo r line hne hline]
    exact sortByPos_perm _
  · intro geo r line nid hline hnid hnone e he hne
    obtain ⟨c, hc, -, -, -⟩ := hmem geo r line e hline he
    rw [hne] at hc
    rw [hc] at hnone
    exact Option.noConfusion hnone
  · intro geo r line nid c D hline hnid hc hD
    have hneq : r.stopNodeIds ≠ [] := by
      intro h
      rw [h] at hnid
      simp at hnid
    rw [getCachedStopPositions_eq geo r line hneq hline]
    refine ⟨{ nodeId := nid, routePosition := max 0 (geo.nearestLoc line c - 0.075),
              coordinates := c }, ?_, rfl, rfl, by rw [hD]⟩
    refine (sortByPos_perm _).mem_iff.mpr ?_
    refine List.mem_filterMap.mpr ⟨nid, hnid, ?_⟩
    unfold mkStopEntry
    rw [hc]

/-! Witness scenario for C8: two resolvable stops declared out of order,
one unresolvable stop, on the 100 km equatorial way; the projection
returns the longitude of the stop. -/

/-- Geometry whose projection onto the equatorial line returns the
point's longitude (the along-line distance for points on the line). -/
def geo8 : Geo :=
  { lineLen := eqLen, nearestLoc := fun _ p => p.1, alongPt := fun _ _ => (0, 0),
    bearingOf := fun _ _ => 0 }

/-- Network with the stop nodes `s1` (km 30) and `s2` (km 10); `sx` has
no coordinates. -/
def infra8 : Infra :=
  { ways := [("w", { nodes := ["a", "b"], bidi := true })],
    node_coords := [("a", (0, 0)), ("b", (100, 0)), ("s1", (30, 0)), ("s2", (10, 0))] }

/-- The route over `w` declaring stops `s1, s2, sx` in that (unsorted)
order. -/
def route8 : TrainRoute :=
  { infra := infra8, waySections := [cWS], stopNodeIds := ["s1", "s2", "sx"],
    sectionDistances := [0], totalDistance := 100 }

theorem route8_line : TrainRoute.getRouteLine route8 = some [(0, 0), (100, 0)] := by
  simp [TrainRoute.getRouteLine, route8, WaySection.getCoordinates, cWS_points]

/-- C8 witness: the cache evaluates to the two resolvable stops sorted
ascending (9.925 then 29.925), is sorted and a permutation of the
projections by the theorem, and the boundary instance at `D = 30` yields
the cached entry `max 0 (30 − 0.075) = 29.925`. -/
theorem claim8_witness :
    TrainRoute.getCachedStopPositions geo8 route8
      = [{ nodeId := "s2", routePosition := 9.925, coordinates := (10, 0) },
         { nodeId := "s1", routePosition := 29.925, coordinates := (30, 0) }] ∧
    List.Pairwise (fun a b => a.routePosition ≤ b.routePosition)
      (TrainRoute.getCachedStopPositions geo8 route8) ∧
    (∃ e ∈ TrainRoute.getCachedStopPositions geo8 route8, e.nodeId = "s1" ∧
      e.coordinates = (30, 0) ∧ e.routePosition = max 0 (30 - 0.075)) := by
  refine ⟨?_, claim8_theorem.1 geo8 route8, ?_⟩
  · rw [getCachedStopPositions_eq geo8 route8 [(0, 0), (100, 0)] (by simp [route8]) route8_line]
    norm_num [mkStopEntry, Infra.getNodeCoords, alookup, route8, infra8, geo8,
      sortByPos, insertByPos]
  · refine claim8_theorem.2.2.2.2 geo8 route8 [(0, 0), (100, 0)] "s1" (30, 0) 30
      route8_line (by simp [route8]) rfl rfl

/-! ### Machinery for the amended no-passing claim (C5) -/

/-- The applied acceleration never exceeds the base acceleration. -/
theorem calculateAcceleration_le_base (v a gap : ℚ) (s? : Option ℚ) :
    Train.calculateAcceleration v a gap s? ≤ baseAcceleration := by
  rw [calculateAcceleration_eq_jsMin]
  have hshape : specCandidates v a gap s?
      = baseAcceleration :: (specCandidates v a gap s?).tail := rfl
  rw [hshape]
  exact jsMin_le_head _ _

/-- The exact displacement of the moving part of an update. -/
theorem updateMove_d (geo : Geo) (infra : Infra) (others : List Train) (dt : ℚ)
    (t : Train) :
    (Train.updateMove geo infra others dt t).1.distanceAlongKm
      = t.distanceAlongKm
        + max (t.velocity
              + Train.calculateAcceleration t.velocity t.acceleration
                  (Train.getDistanceToTrainAhead geo infra t others)
                  (some (Train.getDistanceToNextStop geo t).1) * dt) 0 * dt / 1000 := by
  unfold Train.updateMove
  dsimp only
  split
  · obtain ⟨c, b, hs⟩ := updateCoordinates_shape geo _
    rw [hs]
  · obtain ⟨c, b, hs⟩ := updateCoordinates_shape geo _
    rw [hs]

/-- An update never moves a vehicle backward. -/
theorem update_d_ge (geo : Geo) (infra : Infra) (others : List Train) (dt : ℚ)
    (t : Train) (hdt : 0 ≤ dt) :
    t.distanceAlongKm ≤ (Train.update geo infra others dt t).1.distanceAlongKm := by
  have hm : ∀ t' : Train, t'.distanceAlongKm = t.distanceAlongKm →
      t.distanceAlongKm ≤ (Train.updateMove geo infra others dt t').1.distanceAlongKm := by
    intro t' ht'
    rw [updateMove_d, ht']
    have : 0 ≤ max (t'.velocity
        + Train.calculateAcceleration t'.velocity t'.acceleration
            (Train.getDistanceToTrainAhead geo infra t' others)
            (some (Train.getDistanceToNextStop geo t').1) * dt) 0 * dt / 1000 := by
      have h1 : (0 : ℚ) ≤ max (t'.velocity
          + Train.calculateAcceleration t'.velocity t'.acceleration
              (Train.getDistanceToTrainAhead geo infra t' others)
              (some (Train.getDistanceToNextStop geo t').1) * dt) 0 := le_max_right _ _
      positivity
    linarith
  unfold Train.update
  split
  · split
    · exact le_rfl
    · exact hm _ rfl
  · exact hm _ rfl

/-- An update moves a vehicle at most
`max (v + baseAcceleration·dt) 0 · dt / 1000` km, whatever the other
vehicles do. -/
theorem update_d_le (geo : Geo) (infra : Infra) (others : List Train) (dt : ℚ)
    (t : Train) (hdt : 0 ≤ dt) :
    (Train.update geo infra others dt t).1.distanceAlongKm
      ≤ t.distanceAlongKm + max (t.velocity + baseAcceleration * dt) 0 * dt / 1000 := by
  have hdisp : (0 : ℚ) ≤ max (t.velocity + baseAcceleration * dt) 0 * dt / 1000 := by
    have h1 : (0 : ℚ) ≤ max (t.velocity + baseAcceleration * dt) 0 := le_max_right _ _
    positivity
  have hm : ∀ t' : Train, t'.distanceAlongKm = t.distanceAlongKm →
      t'.velocity = t.velocity →
      (Train.updateMove geo infra others dt t').1.distanceAlongKm
        ≤ t.distanceAlongKm + max (t.velocity + baseAcceleration * dt) 0 * dt / 1000 := by
    intro t' hd hv
    rw [updateMove_d, hd]
    have ha : Train.calculateAcceleration t'.velocity t'.acceleration
        (Train.getDistanceToTrainAhead geo infra t' others)
        (some (Train.getDistanceToNextStop geo t').1) ≤ baseAcceleration :=
      calculateAcceleration_le_base _ _ _ _
    have h2 : t'.velocity + Train.calculateAcceleration t'.velocity t'.acceleration
          (Train.getDistanceToTrainAhead geo infra t' others)
          (some (Train.getDistanceToNextStop geo t').1) * dt
        ≤ t.velocity + baseAcceleration * dt := by
      have := mul_le_mul_of_nonneg_right ha hdt
      linarith [hv]
    have h3 : max (t'.velocity + Train.calculateAcceleration t'.velocity t'.acceleration
          (Train.getDistanceToTrainAhead geo infra t' others)
          (some (Train.getDistanceToNextStop geo t').1) * dt) 0
        ≤ max (t.velocity + baseAcceleration * dt) 0 := max_le_max h2 le_rfl
    have h4 := mul_le_mul_of_nonneg_right h3 hdt
    have h5 : max (t'.velocity + Train.calculateAcceleration t'.velocity t'.acceleration
          (Train.getDistanceToTrainAhead geo infra t' others)
          (some (Train.getDistanceToNextStop geo t').1) * dt) 0 * dt / 1000
        ≤ max (t.velocity + baseAcceleration * dt) 0 * dt / 1000 :=
      (div_le_div_iff_of_pos_right (by norm_num : (0 : ℚ) < 1000)).mpr h4
    linarith
  unfold Train.update
  split
  · split
    · linarith
    · exact hm _ rfl rfl
  · exact hm _ rfl rfl

theorem tickStep_keys (geo : Geo) (infra : Infra) (dt : ℚ)
    (st : Fleet × List String × List String) (id : String) :
    (TrainManager.tickStep geo infra dt st id).1.map Prod.fst = st.1.map Prod.fst := by
  unfold TrainManager.tickStep
  dsimp only
  cases alookup st.1 id with
  | none => rfl
  | some t =>
    dsimp only
    split
    · split
      · exact aset_keys _ _ _
      · exact aset_keys _ _ _
    · exact aset_keys _ _ _

theorem foldKeys (geo : Geo) (infra : Infra) (dt : ℚ) :
    ∀ (ids : List String) (st : Fleet × List String × List String),
    ((ids.foldl (TrainManager.tickStep geo infra dt) st).1).map Prod.fst
      = st.1.map Prod.fst := by
  intro ids
  induction ids with
  | nil => intro st; rfl
  | cons c cs ih =>
    intro st
    rw [List.foldl_cons, ih, tickStep_keys]

theorem tickStep_other (geo : Geo) (infra : Infra) (dt : ℚ)
    (st : Fleet × List String × List String) (c id : String) (hne : c ≠ id) :
    alookup (TrainManager.tickStep geo infra dt st c).1 id = alookup st.1 id ∧
    (id ∈ (TrainManager.tickStep geo infra dt st c).2.2 ↔ id ∈ st.2.2) ∧
    (id ∈ (TrainManager.tickStep geo infra dt st c).2.1 ↔ id ∈ st.2.1) := by
  unfold TrainManager.tickStep
  dsimp only
  cases alookup st.1 c with
  | none => exact ⟨rfl, Iff.rfl, Iff.rfl⟩
  | some t =>
    dsimp only
    split
    · split
      · exact ⟨alookup_aset_ne _ _ _ _ hne, by simp [Ne.symm hne], Iff.rfl⟩
      · exact ⟨alookup_aset_ne _ _ _ _ hne, by simp [Ne.symm hne],
          by simp [Ne.symm hne]⟩
    · exact ⟨alookup_aset_ne _ _ _ _ hne, Iff.rfl, Iff.rfl⟩

theorem foldOther (geo : Geo) (infra : Infra) (dt : ℚ) (id : String) :
    ∀ (ids : List String) (st : Fleet × List String × List String), id ∉ ids →
    alookup (ids.foldl (TrainManager.tickStep geo infra dt) st).1 id = alookup st.1 id ∧
    (id ∈ (ids.foldl (TrainManager.tickStep geo infra dt) st).2.2 ↔ id ∈ st.2.2) ∧
    (id ∈ (ids.foldl (TrainManager.tickStep geo infra dt) st).2.1 ↔ id ∈ st.2.1) := by
  intro ids
  induction ids with
  | nil => intro st _; exact ⟨rfl, Iff.rfl, Iff.rfl⟩
  | cons c cs ih =>
    intro st hid
    have hne : c ≠ id := by
      intro h
      exact hid (by simp [h])
    obtain ⟨h1, h2, h3⟩ := tickStep_other geo infra dt st c id hne
    obtain ⟨g1, g2, g3⟩ := ih (TrainManager.tickStep geo infra dt st c)
      (fun h => hid (by simp [h]))
    exact ⟨g1.trans h1, g2.trans h2, g3.trans h3⟩

theorem tickStep_reached_mono (geo : Geo) (infra : Infra) (dt : ℚ)
    (st : Fleet × List String × List String) (c id : String) (h : id ∈ st.2.2) :
    id ∈ (TrainManager.tickStep geo infra dt st c).2.2 := by
  unfold TrainManager.tickStep
  dsimp only
  cases alookup st.1 c with
  | none => exact h
  | some t =>
    dsimp only
    split
    · split
      · simp [h]
      · simp [h]
    · exact h

theorem foldReached_mono (geo : Geo) (infra : Infra) (dt : ℚ) (id : String) :
    ∀ (ids : List String) (st : Fleet × List String × List String), id ∈ st.2.2 →
    id ∈ (ids.foldl (TrainManager.tickStep geo infra dt) st).2.2 := by
  intro ids
  induction ids with
  | nil => intro st h; exact h
  | cons c cs ih =>
    intro st h
    exact ih _ (tickStep_reached_mono geo infra dt st c id h)

theorem tickStep_self_notReached (geo : Geo) (infra : Infra) (dt : ℚ)
    (st : Fleet × List String × List String) (id : String) (t : Train)
    (hl : alookup st.1 id = some t)
    (hu : (Train.update geo infra (st.1.map Prod.snd) dt t).2 = false) :
    TrainManager.tickStep geo infra dt st id
      = (aset st.1 id (Train.update geo infra (st.1.map Prod.snd) dt t).1,
         st.2.1, st.2.2) := by
  unfold TrainManager.tickStep
  dsimp only
  rw [hl]
  dsimp only
  rw [if_neg (by simp [hu])]

theorem tickStep_self_reached (geo : Geo) (infra : Infra) (dt : ℚ)
    (st : Fleet × List String × List String) (id : String) (t : Train)
    (hl : alookup st.1 id = some t)
    (hu : (Train.update geo infra (st.1.map Prod.snd) dt t).2 = true) :
    id ∈ (TrainManager.tickStep geo infra dt st id).2.2 := by
  unfold TrainManager.tickStep
  dsimp only
  rw [hl]
  dsimp only
  rw [if_pos (by simp [hu])]
  split <;> simp

/-- The per-vehicle content of one tick: a vehicle whose update did not
report reached-end is, in the post-fold fleet, exactly the result of one
`Train.update` against SOME intermediate (live) view of the fleet, and it
is not scheduled for removal. -/
theorem tick_entry (geo : Geo) (infra : Infra) (dt : ℚ) (s : Fleet) (id : String)
    (t : Train) (hnd : (s.map Prod.fst).Nodup) (hl : alookup s id = some t)
    (hnr : id ∉ (TrainManager.tickFold geo infra dt s).2.2) :
    ∃ others, alookup (TrainManager.tickFold geo infra dt s).1 id
        = some (Train.update geo infra others dt t).1 ∧
      id ∉ (TrainManager.tickFold geo infra dt s).2.1 := by
  have hidmem : id ∈ s.map Prod.fst :=
    List.mem_map.mpr ⟨(id, t), alookup_mem s id t hl, rfl⟩
  obtain ⟨l₁, l₂, hsplit⟩ := List.append_of_mem hidmem
  have hnd' := hnd
  rw [hsplit] at hnd'
  obtain ⟨hn1, hn2, hdisj⟩ := List.nodup_append.mp hnd'
  have hid1 : id ∉ l₁ := fun h => hdisj h (List.mem_cons_self id l₂)
  have hid2 : id ∉ l₂ := (List.nodup_cons.mp hn2).1
  have hfold : TrainManager.tickFold geo infra dt s
      = l₂.foldl (TrainManager.tickStep geo infra dt)
          (TrainManager.tickStep geo infra dt
            (l₁.foldl (TrainManager.tickStep geo infra dt) (s, [], [])) id) := by
    unfold TrainManager.tickFold
    rw [hsplit, List.foldl_append, List.foldl_cons]
  rw [hfold] at hnr ⊢
  obtain ⟨e1, e2, e3⟩ := foldOther geo infra dt id l₁ (s, [], []) hid1
  have hl₁ : alookup (l₁.foldl (TrainManager.tickStep geo infra dt) (s, [], [])).1 id
      = some t := by rw [e1]; exact hl
  cases hu : (Train.update geo infra
      ((l₁.foldl (TrainManager.tickStep geo infra dt) (s, [], [])).1.map Prod.snd) dt t).2 with
  | true =>
    exact absurd (foldReached_mono geo infra dt id l₂ _
      (tickStep_self_reached geo infra dt _ id t hl₁ hu)) hnr
  | false =>
    have hstep := tickStep_self_notReached geo infra dt _ id t hl₁ hu
    obtain ⟨f1, f2, f3⟩ := foldOther geo infra dt id l₂ _ hid2
    refine ⟨(l₁.foldl (TrainManager.tickStep geo infra dt) (s, [], [])).1.map Prod.snd,
      ?_, ?_⟩
    · rw [f1, hstep]
      exact alookup_aset_self _ _ _ (by rw [hl₁]; rfl)
    · intro hmem
      have hm2 := f3.mp hmem
      rw [hstep] at hm2
      have hm3 := e3.mp hm2
      simp at hm3

theorem updateTrains_nodup (geo : Geo) (infra : Infra) (dt rate : ℚ) (s : Fleet)
    (hnd : (s.map Prod.fst).Nodup) :
    ((TrainManager.updateTrains geo infra dt rate s).map Prod.fst).Nodup := by
  unfold TrainManager.updateTrains
  dsimp only
  have hkeys := foldKeys geo infra (dt * rate) (s.map Prod.fst) (s, [], [])
  have hsub : ((TrainManager.tickFold geo infra (dt * rate) s).1.filter
      (fun p => !((TrainManager.tickFold geo infra (dt * rate) s).2.1.contains p.1))).map
        Prod.fst |>.Sublist
      (((TrainManager.tickFold geo infra (dt * rate) s).1).map Prod.fst) :=
    (List.filter_sublist _).map _
  refine List.Nodup.sublist hsub ?_
  unfold TrainManager.tickFold
  rw [hkeys]
  exact hnd

/-- The per-tick side conditions under which the no-passing property is
preserved for the pair `A` (trailing), `B` (leading): a non-negative time
step; both vehicles present and on the same way; the trailing vehicle's
largest possible kinematic advance `max (v + baseAcceleration·Δt) 0 ·
Δt/1000` fits inside the current gap; and neither vehicle's update
reports the end of its way this tick (so neither is rebased onto another
section). -/
def stepOK (geo : Geo) (infra : Infra) (A B : String) (s : Fleet) (dt : ℚ) : Prop :=
  0 ≤ dt ∧
  ∃ a b, alookup s A = some a ∧ alookup s B = some b ∧
    a.waySection.wayId = b.waySection.wayId ∧
    max (a.velocity + baseAcceleration * dt) 0 * dt / 1000
      ≤ b.distanceAlongKm - a.distanceAlongKm ∧
    A ∉ (TrainManager.tickFold geo infra dt s).2.2 ∧
    B ∉ (TrainManager.tickFold geo infra dt s).2.2

/-- A run of manager ticks (rate 1; an arbitrary rate only rescales `Δt`)
all of whose ticks satisfy `stepOK`. -/
def goodRun (geo : Geo) (infra : Infra) (A B : String) : Fleet → List ℚ → Prop
  | _, [] => True
  | s, dt :: rest =>
    stepOK geo infra A B s dt ∧
    goodRun geo infra A B (TrainManager.updateTrains geo infra dt 1 s) rest

/-- Iterated manager ticks. -/
def runTicks (geo : Geo) (infra : Infra) (s : Fleet) (dts : List ℚ) : Fleet :=
  dts.foldl (fun s dt => TrainManager.updateTrains geo infra dt 1 s) s

theorem updateTrains_eq_filter (geo : Geo) (infra : Infra) (dt : ℚ) (s : Fleet) :
    TrainManager.updateTrains geo infra dt 1 s
      = (TrainManager.tickFold geo infra dt s).1.filter
          (fun p => !((TrainManager.tickFold geo infra dt s).2.1.contains p.1)) := by
  unfold TrainManager.updateTrains
  rw [mul_one]

/-- One `stepOK` tick preserves the order of the pair. -/
theorem tick_order (geo : Geo) (infra : Infra) (A B : String) (s : Fleet) (dt : ℚ)
    (hnd : (s.map Prod.fst).Nodup) (hstep : stepOK geo infra A B s dt) :
    ∀ a' b', alookup (TrainManager.updateTrains geo infra dt 1 s) A = some a' →
      alookup (TrainManager.updateTrains geo infra dt 1 s) B = some b' →
      a'.distanceAlongKm ≤ b'.distanceAlongKm := by
  obtain ⟨hdt, a, b, hla, hlb, hway, hbound, hnrA, hnrB⟩ := hstep
  obtain ⟨oA, hA, hremA⟩ := tick_entry geo infra dt s A a hnd hla hnrA
  obtain ⟨oB, hB, hremB⟩ := tick_entry geo infra dt s B b hnd hlb hnrB
  intro a' b' ha' hb'
  rw [updateTrains_eq_filter] at ha' hb'
  have hA' : alookup ((TrainManager.tickFold geo infra dt s).1.filter
      (fun p => !((TrainManager.tickFold geo infra dt s).2.1.contains p.1))) A
      = some (Train.update geo infra oA dt a).1 :=
    alookup_filter _ _ _ _ hA (by simpa using hremA)
  have hB' : alookup ((TrainManager.tickFold geo infra dt s).1.filter
      (fun p => !((TrainManager.tickFold geo infra dt s).2.1.contains p.1))) B
      = some (Train.update geo infra oB dt b).1 :=
    alookup_filter _ _ _ _ hB (by simpa using hremB)
  rw [hA'] at ha'
  rw [hB'] at hb'
  rw [Option.some_inj] at ha' hb'
  subst ha'
  subst hb'
  have h1 := update_d_le geo infra oA dt a hdt
  have h2 := update_d_ge geo infra oB dt b hdt
  linarith

/-- C5 (amended).  Two vehicles of a fleet never pass one another as long
as every tick of the run satisfies the spacing side conditions of
`stepOK` — in particular, the trailing vehicle's maximal kinematic
advance within the (rate-scaled) `Δt` must fit inside the current gap.
(The unrestricted claim fails: see the counterexample, where a single
large `Δt` lets the trailer jump 12 km past a dwelling leader.)  Under
these conditions, after any number of ticks the trailing vehicle's
`distanceAlongKm` still does not exceed the leader's. -/
theorem claim5_theorem (geo : Geo) (infra : Infra) (A B : String) (s₀ : Fleet)
    (dts : List ℚ)
    (hnd : (s₀.map Prod.fst).Nodup)
    (hrun : goodRun geo infra A B s₀ dts)
    (h0 : ∀ a b, alookup s₀ A = some a → alookup s₀ B = some b →
      a.distanceAlongKm ≤ b.distanceAlongKm) :
    ∀ a b, alookup (runTicks geo infra s₀ dts) A = some a →
      alookup (runTicks geo infra s₀ dts) B = some b →
      a.distanceAlongKm ≤ b.distanceAlongKm := by
  induction dts generalizing s₀ with
  | nil => exact h0
  | cons dt rest ih =>
    obtain ⟨hstep, hrest⟩ := hrun
    exact ih (TrainManager.updateTrains geo infra dt 1 s₀)
      (updateTrains_nodup geo infra dt 1 s₀ hnd) hrest
      (tick_order geo infra A B s₀ dt hnd hstep)

/-! Witness scenario for the amended C5: the trailer at 20 m/s with a
0.5 km gap to a dwelling leader, one 1 s tick. -/

/-- Leader for the witness run: dwelling at 0.5 km. -/
def tL5 : Train :=
  { tA with
      id := "L", distanceAlongKm := 0.5, velocity := 0, routePosition := 0.5,
      isAtStop := true, remainingDwellTime := 1000 }

theorem gapT5 : Train.getDistanceToTrainAhead cGeo cInfra tT [tT, tL5] = 0.5 := by
  norm_num +decide [Train.getDistanceToTrainAhead, Train.distAheadLoop, sectionIndexOf,
    cGetWay, cWay_nodes, cSecDist, List.filterMap_cons, cRoute_sections, cWS_wayId,
    tA, tT, tL5, maxSafe, jsMin]

/-- The trailer after the 1 s tick: 21 m/s, 0.021 km. -/
def tT5 : Train :=
  { tT with
      acceleration := 1, velocity := 21,
      distanceAlongKm := 0.021, routePosition := 0.021 }

theorem updT5 : Train.update cGeo cInfra [tT, tL5] 1 tT = (tT5, false) := by
  rw [show Train.update cGeo cInfra [tT, tL5] 1 tT
      = Train.updateMove cGeo cInfra [tT, tL5] 1 tT from by simp [Train.update, tA, tT]]
  rw [Train.updateMove, gapT5, cNoStopAhead tT rfl]
  norm_num +decide [Train.calculateAcceleration, jsMin, maxSafe, maxSpeed,
    baseAcceleration, baseDeceleration, emergencyDeceleration,
    Train.updateCoordinates, WaySection.getCoordinates, Train.hasReachedEnd,
    cGetWay, cWay_nodes, cWayDist, cWS_points, cWS_wayId, cGeo_lineLen, cGeo_alongPt,
    cGeo_bearingOf, cEqLen, tA, tT, tT5]

/-- The dwelling leader after the tick. -/
def tL5a : Train := { tL5 with remainingDwellTime := 999 }

theorem updL5 : Train.update cGeo cInfra [tT5, tL5] 1 tL5 = (tL5a, false) := by
  norm_num [Train.update, tA, tL5, tL5a]

theorem tickFoldT5 : TrainManager.tickFold cGeo cInfra 1 [("T", tT), ("L", tL5)]
    = ([("T", tT5), ("L", tL5a)], [], []) := by
  norm_num +decide [TrainManager.tickFold, TrainManager.tickStep, alookup, aset,
    updT5, updL5]

/-- C5 (amended) witness: the one-tick run satisfies `stepOK` (gap 0.5 km,
maximal advance 0.021 km, neither vehicle reaches its way's end), and
applying the amended theorem to it yields the preserved order
0.021 ≤ 0.5 of the concrete post-tick fleet. -/
theorem claim5_witness :
    alookup (runTicks cGeo cInfra [("T", tT), ("L", tL5)] [1]) "T" = some tT5 ∧
    alookup (runTicks cGeo cInfra [("T", tT), ("L", tL5)] [1]) "L" = some tL5a ∧
    tT5.distanceAlongKm ≤ tL5a.distanceAlongKm := by
  have hrun : runTicks cGeo cInfra [("T", tT), ("L", tL5)] [1]
      = [("T", tT5), ("L", tL5a)] := by
    show TrainManager.updateTrains cGeo cInfra 1 1 [("T", tT), ("L", tL5)]
      = [("T", tT5), ("L", tL5a)]
    rw [updateTrains_eq_filter, tickFoldT5]
    rfl
  have hT : alookup (runTicks cGeo cInfra [("T", tT), ("L", tL5)] [1]) "T" = some tT5 := by
    rw [hrun]; rfl
  have hL : alookup (runTicks cGeo cInfra [("T", tT), ("L", tL5)] [1]) "L" = some tL5a := by
    rw [hrun]
    simp [alookup]
  refine ⟨hT, hL, ?_⟩
  refine claim5_theorem cGeo cInfra "T" "L" [("T", tT), ("L", tL5)] [1]
    (by simp) ?_ ?_ tT5 tL5a hT hL
  · refine ⟨⟨by norm_num, tT, tL5, rfl, by simp [alookup], rfl, ?_, ?_, ?_⟩, trivial⟩
    · show max (tT.velocity + baseAcceleration * 1) 0 * 1 / 1000
        ≤ tL5.distanceAlongKm - tT.distanceAlongKm
      norm_num [tT, tL5, tA, baseAcceleration]
    · rw [tickFoldT5]
      simp
    · rw [tickFoldT5]
      simp
  · intro a b ha hb
    simp [alookup] at ha hb
    rw [← ha, ← hb]
    norm_num [tT, tL5, tA]

end BMT
